import Mathlib

/-!
Portfolio site: offline cache worker and contact endpoint.

A shallow embedding of `sw.js` (the service worker's install, fetch and activate
handlers) and of the handlers of `backend/server.js` for the contact form, the
file upload, the repository listing and the GIS analysis.

Promises are modelled by their settled value: `Except String α`, where
`.ok v` is a fulfilled promise and `.error e` a rejected one.  The browser's
cache storage is an explicit value that the handlers pass along.
-/

namespace Profile

deriving instance DecidableEq for Except

/-! Service worker (`sw.js`) -/

/-- The constant `CACHE_NAME` of `sw.js`. -/
def CACHE_NAME : String := "portfolio-cache-v1"

/-- The constant `urlsToCache` of `sw.js`. -/
def urlsToCache : List String :=
  [ "/",
    "/index.html",
    "/css/custom.css",
    "/js/main.js",
    "/images/about-me.png",
    "/images/about-me1.png",
    "/images/bg_1.jpg",
    "/images/Inventory.jpg",
    "/images/loc.png",
    "/images/proj_1.jpg",
    "/images/proj_2.jpg",
    "/images/proj_3.jpg",
    "/images/icons/arcgis.png",
    "/images/icons/excel.png",
    "/images/icons/python.png",
    "/images/icons/qgis.png",
    "/images/icons/terrset.png",
    "https://cdn.jsdelivr.net/npm/bootstrap@5.3.0/dist/css/bootstrap.min.css",
    "https://cdn.jsdelivr.net/npm/bootstrap@5.3.0/dist/js/bootstrap.bundle.min.js",
    "https://unpkg.com/aos@2.3.1/dist/aos.js",
    "https://unpkg.com/aos@2.3.1/dist/aos.css",
    "https://cdnjs.cloudflare.com/ajax/libs/font-awesome/5.15.4/css/all.min.css" ]

/-- A request, identified by its URL and method (the key of a cached entry). -/
structure Request where
  url : String
  method : String
  deriving DecidableEq, Repr

/-- A response: status, response type (`"basic"`, `"cors"`, `"opaque"`, ...) and body. -/
structure Response where
  status : Nat
  type : String
  body : String
  deriving DecidableEq, Repr

/-- One named cache store: request/response pairs in insertion order. -/
structure Cache where
  name : String
  entries : List (Request × Response)
  deriving DecidableEq, Repr

/-- The browser's cache storage (`caches`): the stores in creation order. -/
abbrev CacheStorage := List Cache

/-- What the worker's environment decides: the outcome of a network `fetch`
(a rejection, or a fulfilled promise whose value may be absent), whether
`caches.open` of a name succeeds, and whether a write of an entry succeeds. -/
structure Env where
  fetch : Request → Except String (Option Response)
  openOk : String → Bool
  putOk : Request → Response → Bool

/-- Lookup `cache.match(request)` in one store: the first entry stored under the key. -/
def Cache.match (c : Cache) (request : Request) : Option Response :=
  (c.entries.find? (fun e => e.1 = request)).map (fun e => e.2)

/-- Lookup `caches.match(request)`: the first match over the stores in creation order. -/
def cachesMatch : CacheStorage → Request → Option Response
  | [], _ => none
  | c :: rest, request =>
    match c.match request with
    | some response => some response
    | none => cachesMatch rest request

/-- Result of `caches.open(name)`: the store is created, empty, when no store has that name. -/
def cachesOpen (caches : CacheStorage) (name : String) : CacheStorage :=
  if caches.any (fun c => c.name = name) then caches else caches ++ [⟨name, []⟩]

/-- Result of `cache.put(request, response)` on one store: an entry under the same key is replaced. -/
def Cache.put (c : Cache) (request : Request) (response : Response) : Cache :=
  { c with entries := c.entries.filter (fun e => e.1 ≠ request) ++ [(request, response)] }

/-- Write `cache.put(request, response)` on the store called `name`. -/
def cachesPut (caches : CacheStorage) (name : String) (request : Request)
    (response : Response) : CacheStorage :=
  caches.map (fun c => if c.name = name then c.put request response else c)

/-- Enumeration `caches.keys()`: the names of the stores. -/
def cachesKeys (caches : CacheStorage) : List String :=
  caches.map (fun c => c.name)

/-- Result of `caches.delete(name)`: the whole store of that name is removed. -/
def cachesDelete (caches : CacheStorage) (name : String) : CacheStorage :=
  caches.filter (fun c => c.name ≠ name)

/-- JavaScript `Array.prototype.indexOf`: the first position of `x`, or `-1`. -/
def indexOf (xs : List String) (x : String) : Int :=
  match xs.indexOf? x with
  | some i => (i : Nat)
  | none => -1

/-- The request made for a URL string (a `GET`). -/
def Request.get (url : String) : Request := ⟨url, "GET"⟩

/-- The property `response.ok`: a status in the range 200 to 299. -/
def Response.ok (r : Response) : Bool := 200 ≤ r.status && r.status ≤ 299

/-- Bulk add `cache.addAll(urls)` on the store called `name`: every URL is fetched;
if a fetch is rejected, yields no response or a response that is not `ok`, or an
entry cannot be written, the promise is rejected and no entry is stored; otherwise
every response is stored under its request. -/
def cacheAddAll (env : Env) (caches : CacheStorage) (name : String)
    (urls : List String) : Except String CacheStorage :=
  let fetched := urls.map (fun u => (Request.get u, env.fetch (Request.get u)))
  let good := fetched.filterMap (fun p =>
    match p.2 with
    | .ok (some r) => if r.ok && env.putOk p.1 r then some (p.1, r) else none
    | _ => none)
  if good.length = fetched.length then
    .ok (good.foldl (fun acc p => cachesPut acc name p.1 p.2) caches)
  else
    .error "TypeError: Failed to execute 'addAll' on 'Cache': Request failed"

/-- Outcome of a lifecycle handler (`install`, `activate`): the settled promise
given to `event.waitUntil`, the cache storage afterwards and the console output. -/
structure LifecycleOutcome where
  waitUntil : Except String Unit
  caches : CacheStorage
  console : List String
  deriving DecidableEq, Repr

/-- The `install` listener:
`caches.open(CACHE_NAME).then(cache => cache.addAll(urlsToCache)).catch(error => console.error(..))`. -/
def installHandler (env : Env) (caches : CacheStorage) : LifecycleOutcome :=
  if env.openOk CACHE_NAME then
    let opened := cachesOpen caches CACHE_NAME
    match cacheAddAll env opened CACHE_NAME urlsToCache with
    | .ok stored =>
      { waitUntil := .ok (), caches := stored, console := ["Cache opened successfully"] }
    | .error error =>
      -- `.catch` handles the rejection: its promise is fulfilled
      { waitUntil := .ok (), caches := opened,
        console := ["Cache opened successfully", "Cache installation failed: " ++ error] }
  else
    { waitUntil := .ok (), caches := caches,
      console := ["Cache installation failed: " ++ "caches.open rejected"] }

/-- Outcome of the `fetch` listener: the settled promise given to
`event.respondWith`, the cache storage once the handler and the cache write it
started have settled, and the network fetches issued. -/
structure FetchOutcome where
  respondWith : Except String (Option Response)
  caches : CacheStorage
  fetched : List Request
  deriving DecidableEq, Repr

/-- The `fetch` listener: serve from cache, fall back to the network and store a
clone of a valid response (`status === 200`, `type === 'basic'`). -/
def fetchHandler (env : Env) (caches : CacheStorage) (request : Request) : FetchOutcome :=
  match cachesMatch caches request with
  | some response =>
    -- Cache hit - return response
    { respondWith := .ok (some response), caches := caches, fetched := [] }
  | none =>
    match env.fetch request with
    | .error e => { respondWith := .error e, caches := caches, fetched := [request] }
    | .ok none => { respondWith := .ok none, caches := caches, fetched := [request] }
    | .ok (some response) =>
      if response.status ≠ 200 ∨ response.type ≠ "basic" then
        { respondWith := .ok (some response), caches := caches, fetched := [request] }
      else
        let responseToCache := response
        let written :=
          if env.openOk CACHE_NAME then
            let opened := cachesOpen caches CACHE_NAME
            if env.putOk request responseToCache then
              cachesPut opened CACHE_NAME request responseToCache
            else opened
          else caches
        { respondWith := .ok (some response), caches := written, fetched := [request] }

/-- The `activate` listener: every enumerated name that is not in
`cacheWhitelist = [CACHE_NAME]` is deleted. -/
def activateHandler (caches : CacheStorage) : LifecycleOutcome :=
  let cacheWhitelist := [CACHE_NAME]
  let cacheNames := cachesKeys caches
  let remaining := cacheNames.foldl
    (fun acc cacheName =>
      if indexOf cacheWhitelist cacheName = -1 then cachesDelete acc cacheName else acc)
    caches
  { waitUntil := .ok (), caches := remaining, console := [] }

/-! Contact endpoint (`backend/server.js`, `POST /api/contact`) -/

/-- A field of `req.body` as the handler observes it: absent, a string, or any
other value, which is described by its truthiness and by what `ToString` gives
for it (`none` when the conversion throws). -/
inductive JsValue where
  | undefined
  | string (s : String)
  | other (truthy : Bool) (toStr : Option String)
  deriving DecidableEq, Repr

/-- JavaScript truthiness (`!v` is its negation): the empty string and a missing
field are falsy. -/
def JsValue.truthy : JsValue → Bool
  | .undefined => false
  | .string s => s ≠ ""
  | .other t _ => t

/-- The abstract operation `ToString`. -/
def JsValue.toJsString : JsValue → Except String String
  | .undefined => .ok "undefined"
  | .string s => .ok s
  | .other _ (some s) => .ok s
  | .other _ none => .error "TypeError: Cannot convert object to primitive value"

/-- The regular-expression class `\s`: white space and line terminators. -/
def isWhiteSpace (c : Char) : Bool :=
  let n := c.toNat
  n = 0x09 || n = 0x0A || n = 0x0B || n = 0x0C || n = 0x0D || n = 0x20 || n = 0xA0 ||
  n = 0x1680 || (0x2000 ≤ n && n ≤ 0x200A) || n = 0x2028 || n = 0x2029 || n = 0x202F ||
  n = 0x205F || n = 0x3000 || n = 0xFEFF

/-- The class `[^\s@]`. -/
def notSpaceNorAt (c : Char) : Bool :=
  !isWhiteSpace c && c != '@'

/-- Matching `[..]+` at the start of the input: the inputs left after consuming
one or more characters of the class. -/
def matchPlus (cls : Char → Bool) : List Char → List (List Char)
  | [] => []
  | c :: cs => if cls c then cs :: matchPlus cls cs else []

/-- Matching one literal character at the start of the input. -/
def matchChar (ch : Char) : List Char → List (List Char)
  | [] => []
  | c :: cs => if c = ch then [cs] else []

/-- The pattern `/^[^\s@]+@[^\s@]+\.[^\s@]+$/` applied with `test` to a string:
the pieces are matched in sequence and the match must end at the end of the input. -/
def emailRegexTest (email : String) : Bool :=
  (((((matchPlus notSpaceNorAt email.toList).flatMap (matchChar '@')).flatMap
    (matchPlus notSpaceNorAt)).flatMap (matchChar '.')).flatMap
    (matchPlus notSpaceNorAt)).any (fun rest => rest.isEmpty)

/-- The call `emailRegex.test(email)` on a field: the argument is converted with `ToString`. -/
def emailRegexTestValue (email : JsValue) : Except String Bool :=
  match email.toJsString with
  | .ok s => .ok (emailRegexTest s)
  | .error e => .error e

/-- The call `message.replace(/\n/g, '<br>')`: only a string has the method. -/
def messageReplace : JsValue → Except String String
  | .string s => .ok (s.replace "\n" "<br>")
  | _ => .error "TypeError: message.replace is not a function"

/-- The destructured fields of `req.body`. -/
structure ContactBody where
  name : JsValue
  email : JsValue
  subject : JsValue
  message : JsValue
  deriving DecidableEq, Repr

/-- The object handed to `transporter.sendMail` (`fromAddr` and `toAddr` are its
properties `from` and `to`). -/
structure MailOptions where
  fromAddr : Option String
  toAddr : String
  subject : String
  html : String
  replyTo : JsValue
  deriving DecidableEq, Repr

/-- A value in a JSON response body. -/
inductive JsonValue where
  | str (s : String)
  | bool (b : Bool)
  deriving DecidableEq, Repr

/-- An HTTP response produced with `res.status(..).json(..)`: status and the
fields of the body, in order. -/
structure HttpResponse where
  status : Nat
  body : List (String × JsonValue)
  deriving DecidableEq, Repr

/-- What the handler's environment decides: `process.env.EMAIL_USER`, the
outcome of `transporter.sendMail` and the time stamp of the log line. -/
structure ContactEnv where
  EMAIL_USER : Option String
  sendMail : MailOptions → Except String Unit
  now : String

/-- Outcome of the handler: the response, the calls made to
`transporter.sendMail` in order, and the console output. -/
structure ContactOutcome where
  response : HttpResponse
  sendMailCalls : List MailOptions
  console : List String
  deriving DecidableEq, Repr

/-- The `mailOptions` object literal; a `ToString` or the `replace` call may throw. -/
def mailOptions (env : ContactEnv) (body : ContactBody) : Except String MailOptions := do
  let subjectLine ← body.subject.toJsString
  let name ← body.name.toJsString
  let email ← body.email.toJsString
  let subject ← body.subject.toJsString
  let message ← messageReplace body.message
  pure
    { fromAddr := env.EMAIL_USER
      toAddr := "annanshrestha1@gmail.com"
      subject := "Portfolio Contact: " ++ subjectLine
      html :=
        "\n                <h2>New Contact Form Submission</h2>" ++
        "\n                <p><strong>Name:</strong> " ++ name ++ "</p>" ++
        "\n                <p><strong>Email:</strong> " ++ email ++ "</p>" ++
        "\n                <p><strong>Subject:</strong> " ++ subject ++ "</p>" ++
        "\n                <h3>Message:</h3>" ++
        "\n                <p>" ++ message ++ "</p>" ++
        "\n                " ++
        "\n                <hr>" ++
        "\n                <p><small>This message was sent from your portfolio contact form.</small></p>" ++
        "\n            "
      replyTo := body.email }

/-- The line written by `console.log` after the mail was sent. -/
def contactLogLine (env : ContactEnv) (body : ContactBody) : Except String String := do
  let name ← body.name.toJsString
  let email ← body.email.toJsString
  pure ("Contact form submitted by " ++ name ++ " (" ++ email ++ ") at " ++ env.now)

/-- The `catch` block of the handler: the error goes to the console only. -/
def contactCatch (error : String) (calls : List MailOptions) : ContactOutcome :=
  { response :=
      { status := 500,
        body := [("error", .str "Failed to send message. Please try again later.")] }
    sendMailCalls := calls
    console := ["Contact form error: " ++ error] }

/-- The handler registered for `POST /api/contact` (after the `contactLimiter`
middleware), applied to the fields of `req.body`. -/
def contactHandler (env : ContactEnv) (body : ContactBody) : ContactOutcome :=
  -- Validate required fields
  if !body.name.truthy || !body.email.truthy || !body.subject.truthy || !body.message.truthy then
    { response := { status := 400, body := [("error", .str "All fields are required")] }
      sendMailCalls := []
      console := [] }
  else
    -- Email validation
    match emailRegexTestValue body.email with
    | .error e => contactCatch e []
    | .ok false =>
      { response :=
          { status := 400, body := [("error", .str "Please provide a valid email address")] }
        sendMailCalls := []
        console := [] }
    | .ok true =>
      -- Prepare email content
      match mailOptions env body with
      | .error e => contactCatch e []
      | .ok options =>
        -- Send email
        match env.sendMail options with
        | .error e => contactCatch e [options]
        | .ok () =>
          -- Log the contact attempt
          match contactLogLine env body with
          | .error e => contactCatch e [options]
          | .ok line =>
            { response :=
                { status := 200,
                  body := [("success", .bool true),
                    ("message", .str "Message sent successfully! I will get back to you soon.")] }
              sendMailCalls := [options]
              console := [line] }

/-- An environment in which the fetch of `/index.html` is rejected and every
other fetch, open and write succeeds. -/
def indexFetchFails : Env where
  fetch := fun request =>
    if request.url = "/index.html" then .error "TypeError: Failed to fetch"
    else .ok (some { status := 200, type := "basic", body := "" })
  openOk := fun _ => true
  putOk := fun _ _ => true

/-- A cache storage that holds only a store of an earlier generation. -/
def staleOnly : CacheStorage := [{ name := "portfolio-cache-v0", entries := [] }]

/-! Upload, repository listing and GIS analysis (`backend/server.js`) -/

/-- A JavaScript value as it comes out of `JSON.parse` or goes into `res.json`:
`undefined` stands for a property that is not there, and a number is written as
a decimal `mantissa / 10 ^ scale` (so `1234.56` is `num 123456 2`). -/
inductive Json where
  | undefined
  | null
  | bool (b : Bool)
  | num (mantissa : Int) (scale : Nat)
  | str (s : String)
  | arr (items : List Json)
  | obj (fields : List (String × Json))

/-- Property read `v.key`, for the property names the handlers use (none of them
exists on a string, number, boolean or array): it throws on `undefined` and
`null`, and gives `undefined` where the property is absent. -/
def Json.prop (v : Json) (key : String) : Except String Json :=
  match v with
  | .undefined => .error ("TypeError: Cannot read properties of undefined (reading '" ++ key ++ "')")
  | .null => .error ("TypeError: Cannot read properties of null (reading '" ++ key ++ "')")
  | .obj fields => .ok ((fields.lookup key).getD .undefined)
  | _ => .ok .undefined

/-- A response produced with `res.status(..).json(value)`; the status is 200
when `res.status` is not called. -/
structure JsonResponse where
  status : Nat
  body : Json

/-- The file part of a multipart upload as `fileFilter` sees it, with the
number of bytes the client sends for it. -/
structure UploadFile where
  originalname : String
  mimetype : String
  size : Nat
  deriving DecidableEq, Repr

/-- The `limits.fileSize` option of `upload`: `10 * 1024 * 1024`. -/
def fileSize : Nat := 10 * 1024 * 1024

/-- The alternatives of the pattern `allowedTypes`,
`/jpeg|jpg|png|gif|pdf|doc|docx|shp|kml|geojson/`. -/
def allowedTypes : List String :=
  ["jpeg", "jpg", "png", "gif", "pdf", "doc", "docx", "shp", "kml", "geojson"]

/-- Whether `sub` occurs in `s` as a run of consecutive characters. -/
def includes (s sub : List Char) : Bool :=
  s.tails.any (fun t => sub.isPrefixOf t)

/-- The call `allowedTypes.test(s)`: the pattern has no anchors, so it succeeds
when one of the alternatives occurs anywhere in `s`. -/
def allowedTypesTest (s : String) : Bool :=
  allowedTypes.any (fun a => includes s.toList a.toList)

/-- Node's `path.extname` (POSIX): the part of the last path component from its
last `.` on; empty when there is no `.`, when the `.` is the first character of
the component, and for the component `..`. -/
def extname (path : String) : String :=
  let trimmed := (path.toList.reverse.dropWhile (fun c => c = '/')).reverse
  let base := (trimmed.reverse.takeWhile (fun c => c ≠ '/')).reverse
  let afterDot := base.reverse.takeWhile (fun c => c ≠ '.')
  if afterDot.length = base.length then ""
  else
    let startDot := base.length - afterDot.length - 1
    if startDot = 0 then ""
    else if base = ['.', '.'] then ""
    else String.mk (base.drop startDot)

/-- Lower-casing of one character: the ASCII capitals, and the two other
characters whose lower-case form contains an ASCII letter (the Kelvin sign and
the dotted capital I). Other letters are left as they are: their lower-case
forms are not ASCII, so a test against ASCII words is not affected. -/
def toLowerChar (c : Char) : List Char :=
  if c.toNat = 0x212A then ['k']
  else if c.toNat = 0x0130 then ['i', Char.ofNat 0x0307]
  else [c.toLower]

/-- JavaScript `String.prototype.toLowerCase`. -/
def toLowerCase (s : String) : String :=
  String.mk (s.toList.flatMap toLowerChar)

/-- The `fileFilter` of `upload`: `.ok true` is `cb(null, true)` and `.error m`
is `cb(new Error(m))`. -/
def fileFilter (file : UploadFile) : Except String Bool :=
  let extnameOk := allowedTypesTest (toLowerCase (extname file.originalname))
  let mimetypeOk := allowedTypesTest file.mimetype
  if mimetypeOk && extnameOk then .ok true
  else .error "Invalid file type. Only images, documents, and GIS files are allowed."

/-- An error handed to the error-handling middleware: whether it is an
instance of `multer.MulterError`, its `code` and its `message`. -/
structure ServerError where
  isMulterError : Bool
  code : Option String
  message : String
  deriving DecidableEq, Repr

/-- The error-handling middleware; `nodeEnv` is `process.env.NODE_ENV`. -/
def errorMiddleware (nodeEnv : Option String) (error : ServerError) : JsonResponse :=
  if error.isMulterError && error.code = some "LIMIT_FILE_SIZE" then
    { status := 400, body := .obj [("error", .str "File too large. Maximum size is 10MB.")] }
  else
    { status := 500,
      body := .obj [("error", .str "Internal server error"),
        ("message",
          .str (if nodeEnv = some "production" then "Something went wrong!" else error.message))] }

/-- The object `req.file` that multer leaves for an accepted, stored file. -/
structure StoredFile where
  filename : String
  originalname : String
  size : Nat
  mimetype : String
  path : String
  deriving DecidableEq, Repr

/-- The handler registered for `POST /api/upload/gis`, applied to `req.file`;
`now` is `new Date().toISOString()`. -/
def uploadGisHandler (now : String) (file : Option StoredFile) : JsonResponse :=
  match file with
  | none => { status := 400, body := .obj [("error", .str "No file uploaded")] }
  | some file =>
    let fileInfo := Json.obj
      [("filename", .str file.filename),
       ("originalName", .str file.originalname),
       ("size", .num file.size 0),
       ("mimetype", .str file.mimetype),
       ("uploadDate", .str now),
       ("path", .str file.path)]
    { status := 200,
      body := .obj [("success", .bool true), ("message", .str "File uploaded successfully"),
        ("file", fileInfo)] }

/-- What the upload route's environment decides: `process.env.NODE_ENV`, the
time stamp, and the `uniqueSuffix` of the stored file's name. -/
structure UploadEnv where
  nodeEnv : Option String
  now : String
  uniqueSuffix : String

/-- The file that `storage` writes: `filename` is
`file.fieldname + '-' + uniqueSuffix + path.extname(file.originalname)` with the
field name `gisFile`, in the directory `uploads/`. -/
def storedFile (env : UploadEnv) (file : UploadFile) : StoredFile :=
  let filename := "gisFile" ++ "-" ++ env.uniqueSuffix ++ extname file.originalname
  { filename := filename, originalname := file.originalname, size := file.size,
    mimetype := file.mimetype, path := "uploads/" ++ filename }

/-- The route `POST /api/upload/gis` with its middleware `upload.single('gisFile')`:
multer runs `fileFilter` on the file part and passes its error on to the error
middleware as it is; a file that was let in and is larger than `fileSize` ends
in a `MulterError` with code `LIMIT_FILE_SIZE`; otherwise the handler runs,
with `req.file` set when a file was stored. -/
def uploadGisRoute (env : UploadEnv) (part : Option UploadFile) : JsonResponse :=
  match part with
  | none => uploadGisHandler env.now none
  | some file =>
    match fileFilter file with
    | .error message =>
      errorMiddleware env.nodeEnv { isMulterError := false, code := none, message := message }
    | .ok false => uploadGisHandler env.now none
    | .ok true =>
      if file.size > fileSize then
        errorMiddleware env.nodeEnv
          { isMulterError := true, code := some "LIMIT_FILE_SIZE", message := "File too large" }
      else uploadGisHandler env.now (some (storedFile env file))

/-- What the repository route's environment decides: whether the dynamic
`import('node-fetch')` succeeds, and for a URL the outcome of `fetch` (rejected,
or a response) together with the outcome of `response.json()` on it. -/
structure GithubEnv where
  fetchModule : Except String Unit
  fetch : String → Except String (Except String Json)

/-- The arrow function given to `repos.map`; reading a property of `null` throws. -/
def formatRepo (repo : Json) : Except String Json := do
  let name ← repo.prop "name"
  let description ← repo.prop "description"
  let html_url ← repo.prop "html_url"
  let updated_at ← repo.prop "updated_at"
  let language ← repo.prop "language"
  let stargazers_count ← repo.prop "stargazers_count"
  let forks_count ← repo.prop "forks_count"
  pure (.obj
    [("name", name), ("description", description), ("html_url", html_url),
     ("updated_at", updated_at), ("language", language),
     ("stargazers_count", stargazers_count), ("forks_count", forks_count)])

/-- The `catch` block of the repository route. -/
def githubReposCatch : JsonResponse :=
  { status := 500, body := .obj [("error", .str "Failed to fetch GitHub repositories")] }

/-- The handler of `GET /api/github/repos`. Only an array has the method `map`:
`repos.map(..)` throws for every other payload. -/
def githubReposHandler (env : GithubEnv) : JsonResponse :=
  match env.fetchModule with
  | .error _ => githubReposCatch
  | .ok () =>
    match env.fetch "https://api.github.com/users/AnnShrestha/repos?sort=updated&per_page=10" with
    | .error _ => githubReposCatch
    | .ok response =>
      match response with
      | .error _ => githubReposCatch
      | .ok repos =>
        match repos with
        | .arr items =>
          match items.mapM formatRepo with
          | .error _ => githubReposCatch
          | .ok formattedRepos => { status := 200, body := .arr formattedRepos }
        | _ => githubReposCatch

/-- The handler of `POST /api/gis/analyze`, applied to `req.body`; `nowMillis`
is `Date.now().toString()` and `nowIso` is `new Date().toISOString()`. The body
is the object given to `res.json`, whose `undefined` properties are left out
when it is written. -/
def gisAnalyzeHandler (nowMillis nowIso : String) (body : Json) : JsonResponse :=
  let destructured : Except String (Json × Json × Json) := do
    let dataType ← body.prop "dataType"
    let analysisType ← body.prop "analysisType"
    let parameters ← body.prop "parameters"
    pure (dataType, analysisType, parameters)
  match destructured with
  | .error _ => { status := 500, body := .obj [("error", .str "GIS analysis failed")] }
  | .ok (dataType, analysisType, parameters) =>
    let analysisResult := Json.obj
      [("id", .str nowMillis),
       ("dataType", dataType),
       ("analysisType", analysisType),
       ("parameters", parameters),
       ("status", .str "completed"),
       ("results", .obj
          [("area", .num 123456 2),
           ("perimeter", .num 78912 2),
           ("centroid", .obj [("x", .num (-718023) 4), ("y", .num 422619 4)]),
           ("metadata", .obj
              [("crs", .str "EPSG:4326"), ("units", .str "degrees"),
               ("processedAt", .str nowIso)])])]
    { status := 200, body := analysisResult }

/-! Client-side validation (`js/contact-form.js`, `js/main.js`) -/

/-- The property `length` of a JavaScript string: its number of UTF-16 code
units (a character outside the basic plane counts for two). -/
def jsLength (s : String) : Nat :=
  (s.toList.map (fun c => if c.toNat < 0x10000 then 1 else 2)).sum

/-- Outcome of a client-side validator: the value returned and the calls to
`showNotification(message, type)` it made. -/
structure ValidationOutcome where
  result : Bool
  notifications : List (String × String)
  deriving DecidableEq, Repr

/-- A call of `showNotification` in `contact-form.js`. The file does not declare
the function and no script declares it globally (`main.js` declares it inside
its `DOMContentLoaded` callback, which is another scope), so the call throws. -/
def ContactFormJs.showNotification (_message _type : String) : Except String Unit :=
  .error "ReferenceError: showNotification is not defined"

/-- The function `validateForm` of `contact-form.js`, applied to the values of the
`email` input and of the `message` text area: `.ok` holds what it returns and
the notifications shown, `.error` is an exception it throws. -/
def ContactFormJs.validateForm (email message : String) : Except String ValidationOutcome :=
  if !emailRegexTest email then
    match ContactFormJs.showNotification "Please enter a valid email address" "error" with
    | .error e => .error e
    | .ok () =>
      .ok { result := false,
            notifications := [("Please enter a valid email address", "error")] }
  else if jsLength message < 10 then
    match ContactFormJs.showNotification "Message must be at least 10 characters long" "error" with
    | .error e => .error e
    | .ok () =>
      .ok { result := false,
            notifications := [("Message must be at least 10 characters long", "error")] }
  else
    .ok { result := true, notifications := [] }

/-- The function `validateForm` of `main.js`, applied to the values that
`formData.get('email')` and `formData.get('message')` give for the form's text
fields; `showNotification` is declared in the same callback, so the calls succeed. -/
def MainJs.validateForm (email message : String) : ValidationOutcome :=
  if !emailRegexTest email then
    { result := false, notifications := [("Please enter a valid email address", "error")] }
  else if jsLength message < 10 then
    { result := false,
      notifications := [("Message must be at least 10 characters long", "error")] }
  else
    { result := true, notifications := [] }

/-! Spatial data (`backend/server.js`, `GET /api/gis/data/:type`) -/

/-- What reading a property of an object literal gives: a value of its own, a
function or the object inherited from `Object.prototype`, or nothing. -/
inductive JsProperty where
  | value (v : Json)
  | inheritedFunction
  | objectPrototype
  | absent

/-- The property `points` of `sampleData`. -/
def samplePoints : Json :=
  .obj
    [("type", .str "FeatureCollection"),
     ("features", .arr
        [.obj
          [("type", .str "Feature"),
           ("properties", .obj
              [("name", .str "Clark University"), ("type", .str "Educational Institution")]),
           ("geometry", .obj
              [("type", .str "Point"),
               ("coordinates", .arr [.num (-71825) 3, .num 42251 3])])]])]

/-- The property `polygons` of `sampleData`. -/
def samplePolygons : Json :=
  .obj
    [("type", .str "FeatureCollection"),
     ("features", .arr
        [.obj
          [("type", .str "Feature"),
           ("properties", .obj
              [("name", .str "Worcester County"), ("population", .num 830000 0)]),
           ("geometry", .obj
              [("type", .str "Polygon"),
               ("coordinates", .arr
                  [.arr
                    [.arr [.num (-719) 1, .num 421 1],
                     .arr [.num (-717) 1, .num 421 1],
                     .arr [.num (-717) 1, .num 424 1],
                     .arr [.num (-719) 1, .num 424 1],
                     .arr [.num (-719) 1, .num 421 1]]])])]])]

/-- The names of the functions every object literal inherits from
`Object.prototype`. -/
def objectPrototypeFunctions : List String :=
  ["constructor", "hasOwnProperty", "isPrototypeOf", "propertyIsEnumerable",
   "toLocaleString", "toString", "valueOf", "__defineGetter__", "__defineSetter__",
   "__lookupGetter__", "__lookupSetter__"]

/-- The read `sampleData[type]`: the literal's own properties `points` and
`polygons`, then what it inherits from `Object.prototype`. -/
def sampleDataGet (type : String) : JsProperty :=
  if type = "points" then .value samplePoints
  else if type = "polygons" then .value samplePolygons
  else if type = "__proto__" then .objectPrototype
  else if type ∈ objectPrototypeFunctions then .inheritedFunction
  else .absent

/-- The handler of `GET /api/gis/data/:type`:
`res.json(sampleData[type] || sampleData.points)`. An object and a function are
truthy; `res.json` writes no body for a function and an empty object for
`Object.prototype`. -/
def gisDataHandler (type : String) : JsonResponse :=
  let data := match sampleDataGet type with
    | .absent => JsProperty.value samplePoints
    | found => found
  match data with
  | .value v => { status := 200, body := v }
  | .inheritedFunction => { status := 200, body := .undefined }
  | .objectPrototype => { status := 200, body := .obj [] }
  | .absent => { status := 200, body := .undefined }

/-! Typing animation (`js/main.js`) -/

/-- The constant `texts` of `main.js`. -/
def texts : List String :=
  [ "GIS Analyst",
    "Spatial Analyst",
    "Remote Sensing Expert",
    "Environmental Mapper",
    "Web Mapping",
    "Data Scientist",
    "Cartographer" ]

/-- The variables of the animation: `textIndex`, `charIndex`, `isDeleting`, the
`textContent` of the element (`none` until the animation has written it), and
the number of pending `setTimeout(() => isDeleting = true, 2000)` timers. -/
structure TypingState where
  textIndex : Nat
  charIndex : Int
  isDeleting : Bool
  textContent : Option String
  pendingTimers : Nat
  deriving DecidableEq, Repr

/-- JavaScript `s.substring(0, stop)` on a string of basic-plane characters: a
negative `stop` counts as 0 and one beyond the end as the length. -/
def substring0 (s : String) (stop : Int) : String :=
  String.mk (s.toList.take stop.toNat)

/-- The state when the script has declared its variables. -/
def initialTyping : TypingState :=
  { textIndex := 0, charIndex := 0, isDeleting := false, textContent := none,
    pendingTimers := 0 }

/-- One run of `typeAnimation`. When `texts[textIndex]` is `undefined` the call
throws at `substring` and changes nothing. -/
def typeAnimation (s : TypingState) : TypingState :=
  match texts[s.textIndex]? with
  | none => s
  | some currentText =>
    let written : TypingState :=
      if s.isDeleting then
        { s with textContent := some (substring0 currentText (s.charIndex - 1)),
                 charIndex := s.charIndex - 1 }
      else
        { s with textContent := some (substring0 currentText (s.charIndex + 1)),
                 charIndex := s.charIndex + 1 }
    if !written.isDeleting && written.charIndex = (jsLength currentText : Int) then
      { written with pendingTimers := written.pendingTimers + 1 }
    else if written.isDeleting && written.charIndex = 0 then
      { written with isDeleting := false, textIndex := (written.textIndex + 1) % texts.length }
    else written

/-- The delayed callback `() => isDeleting = true` of one pending timer. -/
def fireTimer (s : TypingState) : TypingState :=
  { s with isDeleting := true, pendingTimers := s.pendingTimers - 1 }

/-- The states reachable from the initial one by runs of `typeAnimation`
interleaved, in any order, with the callbacks of pending timers. -/
inductive TypingReachable : TypingState → Prop where
  | start : TypingReachable initialTyping
  | tick {s : TypingState} : TypingReachable s → TypingReachable (typeAnimation s)
  | timer {s : TypingState} : TypingReachable s → 0 < s.pendingTimers →
      TypingReachable (fireTimer s)

/-! Lemmas on the cache storage -/

theorem Cache.match_some_mem {c : Cache} {request : Request} {r : Response}
    (h : c.match request = some r) : (request, r) ∈ c.entries := by
  unfold Cache.match at h
  cases hf : c.entries.find? (fun e => e.1 = request) with
  | none => simp [hf] at h
  | some e =>
    simp [hf] at h
    have hmem := List.mem_of_find?_eq_some hf
    have hkey := List.find?_some hf
    simp at hkey
    obtain ⟨k, v⟩ := e
    simp at h hkey
    subst h hkey
    exact hmem

theorem Cache.match_isSome_of_mem {c : Cache} {request : Request} {r : Response}
    (h : (request, r) ∈ c.entries) : ∃ r', c.match request = some r' := by
  unfold Cache.match
  cases hf : c.entries.find? (fun e => e.1 = request) with
  | none =>
    rw [List.find?_eq_none] at hf
    have := hf _ h
    simp at this
  | some e => exact ⟨e.2, by simp⟩

theorem cachesMatch_some_mem {caches : CacheStorage} {request : Request} {r : Response}
    (h : cachesMatch caches request = some r) :
    ∃ c ∈ caches, (request, r) ∈ c.entries := by
  induction caches with
  | nil => simp [cachesMatch] at h
  | cons c rest ih =>
    unfold cachesMatch at h
    cases hc : c.match request with
    | some r' =>
      simp [hc] at h
      subst h
      exact ⟨c, by simp, Cache.match_some_mem hc⟩
    | none =>
      simp [hc] at h
      obtain ⟨c', hc', hmem⟩ := ih h
      exact ⟨c', by simp [hc'], hmem⟩

theorem cachesMatch_isSome_of_mem {caches : CacheStorage} {request : Request}
    (h : ∃ c ∈ caches, ∃ r, (request, r) ∈ c.entries) :
    ∃ r', cachesMatch caches request = some r' := by
  induction caches with
  | nil => simp at h
  | cons c rest ih =>
    unfold cachesMatch
    cases hc : c.match request with
    | some r' => exact ⟨r', rfl⟩
    | none =>
      obtain ⟨c', hc', r, hmem⟩ := h
      rcases List.mem_cons.mp hc' with heq | hrest
      · subst heq
        obtain ⟨r', hr'⟩ := Cache.match_isSome_of_mem hmem
        rw [hr'] at hc
        cases hc
      · exact ih ⟨c', hrest, r, hmem⟩

theorem cachesMatch_none_of_no_entry {caches : CacheStorage} {request : Request}
    (h : ∀ c ∈ caches, ∀ r, (request, r) ∉ c.entries) :
    cachesMatch caches request = none := by
  cases hm : cachesMatch caches request with
  | none => rfl
  | some r =>
    obtain ⟨c, hc, hmem⟩ := cachesMatch_some_mem hm
    exact absurd hmem (h c hc r)

theorem Cache.match_none_of_no_entry {c : Cache} {request : Request}
    (h : ∀ r, (request, r) ∉ c.entries) : c.match request = none := by
  cases hm : c.match request with
  | none => rfl
  | some r => exact absurd (Cache.match_some_mem hm) (h r)

theorem Cache.match_put (c : Cache) (request : Request) (response : Response) :
    (c.put request response).match request = some response := by
  unfold Cache.match Cache.put
  simp only [List.find?_append]
  have hnone : (c.entries.filter (fun e => e.1 ≠ request)).find? (fun e => e.1 = request)
      = none := by
    rw [List.find?_eq_none]
    intro e he
    have := (List.mem_filter.mp he).2
    simpa using this
  simp [hnone]

theorem cachesMatch_cachesPut {caches : CacheStorage} {name : String} {request : Request}
    (response : Response)
    (hnone : ∀ c ∈ caches, c.match request = none)
    (hex : ∃ c ∈ caches, c.name = name) :
    cachesMatch (cachesPut caches name request response) request = some response := by
  induction caches with
  | nil => simp at hex
  | cons c rest ih =>
    unfold cachesPut
    simp only [List.map_cons]
    unfold cachesMatch
    by_cases hn : c.name = name
    · simp [hn, Cache.match_put]
    · have hc : c.match request = none := hnone c (by simp)
      simp only [hn, if_false, hc]
      obtain ⟨c', hc', hname⟩ := hex
      rcases List.mem_cons.mp hc' with heq | hrest
      · subst heq
        exact absurd hname hn
      · exact ih (fun d hd => hnone d (by simp [hd])) ⟨c', hrest, hname⟩

theorem cachesOpen_exists (caches : CacheStorage) (name : String) :
    ∃ c ∈ cachesOpen caches name, c.name = name := by
  unfold cachesOpen
  by_cases h : caches.any (fun c => c.name = name) = true
  · simp only [h, if_true]
    simpa using h
  · simp only [h]
    exact ⟨⟨name, []⟩, by simp, rfl⟩

theorem cachesOpen_match_none {caches : CacheStorage} {request : Request} (name : String)
    (hnone : ∀ c ∈ caches, c.match request = none) :
    ∀ c ∈ cachesOpen caches name, c.match request = none := by
  unfold cachesOpen
  by_cases h : caches.any (fun c => c.name = name) = true
  · simpa only [h, if_true] using hnone
  · simp only [h]
    intro c hc
    rcases List.mem_append.mp hc with h1 | h1
    · exact hnone c h1
    · simp at h1
      subst h1
      rfl

/-! Lemmas on the lifecycle handlers -/

theorem indexOf_whitelist (n : String) :
    indexOf [CACHE_NAME] n = -1 ↔ n ≠ CACHE_NAME := by
  unfold indexOf List.indexOf?
  by_cases hn : n = CACHE_NAME
  · subst hn
    simp [List.findIdx?_cons]
  · have : (CACHE_NAME == n) = false := by
      simpa using fun h => hn h.symm
    simp [List.findIdx?_cons, this, hn]

theorem activate_fold (names : List String) (acc : CacheStorage) :
    names.foldl
      (fun acc cacheName =>
        if indexOf [CACHE_NAME] cacheName = -1 then cachesDelete acc cacheName else acc) acc
    = acc.filter (fun c => decide (c.name = CACHE_NAME) || decide (c.name ∉ names)) := by
  induction names generalizing acc with
  | nil => simp
  | cons n rest ih =>
    simp only [List.foldl_cons]
    rw [ih]
    by_cases hn : n = CACHE_NAME
    · have hidx : indexOf [CACHE_NAME] n ≠ -1 := by
        rw [Ne, indexOf_whitelist]
        simpa using hn
      simp only [hidx, if_false]
      apply List.filter_congr
      intro c _
      by_cases hc : c.name = CACHE_NAME
      · simp [hc]
      · have : c.name ≠ n := by rw [hn]; exact hc
        simp [hc, this]
    · have hidx : indexOf [CACHE_NAME] n = -1 := (indexOf_whitelist n).mpr hn
      simp only [hidx, if_true]
      unfold cachesDelete
      rw [List.filter_filter]
      apply List.filter_congr
      intro c _
      by_cases hc : c.name = CACHE_NAME
      · have : c.name ≠ n := by rw [hc]; exact fun h => hn h.symm
        have hn2 : ¬ CACHE_NAME = n := fun h => hn h.symm
        simp [hc, this, hn2]
      · by_cases hcn : c.name = n
        · simp [hc, hcn, hn]
        · simp [hc, hcn]

theorem activate_caches (caches : CacheStorage) :
    (activateHandler caches).caches = caches.filter (fun c => c.name = CACHE_NAME) := by
  unfold activateHandler
  simp only
  rw [activate_fold]
  apply List.filter_congr
  intro c hc
  have : c.name ∈ cachesKeys caches := by
    unfold cachesKeys
    exact List.mem_map.mpr ⟨c, hc, rfl⟩
  simp [this]

theorem filterMap_length_lt {α β : Type} (f : α → Option β) (l : List α)
    (h : ∃ a ∈ l, f a = none) : (l.filterMap f).length < l.length := by
  induction l with
  | nil => simp at h
  | cons a rest ih =>
    obtain ⟨b, hb, hnone⟩ := h
    rcases List.mem_cons.mp hb with heq | hrest
    · subst heq
      rw [List.filterMap_cons_none hnone]
      have := List.length_filterMap_le f rest
      simp only [List.length_cons]
      omega
    · have := ih ⟨b, hrest, hnone⟩
      cases hfa : f a with
      | none =>
        rw [List.filterMap_cons_none hfa]
        simp only [List.length_cons]
        omega
      | some v =>
        rw [List.filterMap_cons_some hfa]
        simp only [List.length_cons]
        omega

theorem cacheAddAll_rejects (env : Env) (caches : CacheStorage) (name : String)
    (urls : List String)
    (h : ∃ u ∈ urls, ∃ e, env.fetch (Request.get u) = .error e) :
    ∃ e, cacheAddAll env caches name urls = .error e := by
  obtain ⟨u, hu, e, he⟩ := h
  unfold cacheAddAll
  simp only
  have hlt := filterMap_length_lt
    (fun p : Request × Except String (Option Response) =>
      match p.2 with
      | .ok (some r) => if r.ok && env.putOk p.1 r then some (p.1, r) else none
      | _ => none)
    (urls.map (fun u => (Request.get u, env.fetch (Request.get u))))
    ⟨(Request.get u, env.fetch (Request.get u)), List.mem_map.mpr ⟨u, hu, rfl⟩, by simp [he]⟩
  rw [if_neg (Nat.ne_of_lt hlt)]
  exact ⟨_, rfl⟩

theorem installHandler_waitUntil (env : Env) (caches : CacheStorage) :
    (installHandler env caches).waitUntil = .ok () := by
  unfold installHandler
  by_cases ho : env.openOk CACHE_NAME = true
  · simp only [ho, if_true]
    cases cacheAddAll env (cachesOpen caches CACHE_NAME) CACHE_NAME urlsToCache <;> rfl
  · simp only [ho]
    rfl

/-! The service worker's properties -/

/-- C1: cache-hit short-circuit. For every cache storage and every request whose
key has a stored entry, the fetch handler responds with a response stored under
that key (the first match in enumeration order), leaves the storage as it is and
issues no network fetch, whatever the environment would answer. -/
theorem fetch_cache_hit (env : Env) (caches : CacheStorage) (request : Request)
    (h : ∃ c ∈ caches, ∃ r, (request, r) ∈ c.entries) :
    ∃ stored, (∃ c ∈ caches, (request, stored) ∈ c.entries) ∧
      cachesMatch caches request = some stored ∧
      fetchHandler env caches request =
        { respondWith := .ok (some stored), caches := caches, fetched := [] } := by
  obtain ⟨stored, hs⟩ := cachesMatch_isSome_of_mem h
  refine ⟨stored, cachesMatch_some_mem hs, hs, ?_⟩
  unfold fetchHandler
  rw [hs]

theorem fetch_cache_hit_witness :
    ∃ stored, (∃ c ∈ [Cache.mk CACHE_NAME [(Request.get "/", ⟨200, "basic", "home"⟩)]],
        (Request.get "/", stored) ∈ c.entries) ∧
      cachesMatch [Cache.mk CACHE_NAME [(Request.get "/", ⟨200, "basic", "home"⟩)]]
        (Request.get "/") = some stored ∧
      fetchHandler indexFetchFails
          [Cache.mk CACHE_NAME [(Request.get "/", ⟨200, "basic", "home"⟩)]] (Request.get "/") =
        { respondWith := .ok (some stored),
          caches := [Cache.mk CACHE_NAME [(Request.get "/", ⟨200, "basic", "home"⟩)]],
          fetched := [] } :=
  fetch_cache_hit indexFetchFails
    [Cache.mk CACHE_NAME [(Request.get "/", ⟨200, "basic", "home"⟩)]] (Request.get "/")
    ⟨_, List.mem_singleton.mpr rfl, ⟨200, "basic", "home"⟩, List.mem_singleton.mpr rfl⟩

/-- C2: write-through on first miss. For every request without a cached entry,
if the network fetch yields a response with status 200 and type `basic` and the
cache write (open and put) succeeds, then handling the same request again, in
any environment, is a cache hit: it responds with the stored clone of that
response, changes nothing and issues no network fetch. -/
theorem fetch_write_through (env env2 : Env) (caches : CacheStorage) (request : Request)
    (response : Response)
    (hmiss : ∀ c ∈ caches, ∀ r, (request, r) ∉ c.entries)
    (hfetch : env.fetch request = .ok (some response))
    (hstatus : response.status = 200) (htype : response.type = "basic")
    (hopen : env.openOk CACHE_NAME = true) (hput : env.putOk request response = true) :
    (fetchHandler env caches request).respondWith = .ok (some response) ∧
    fetchHandler env2 (fetchHandler env caches request).caches request =
      { respondWith := .ok (some response),
        caches := (fetchHandler env caches request).caches,
        fetched := [] } := by
  have hm : cachesMatch caches request = none := cachesMatch_none_of_no_entry hmiss
  have hcaches : (fetchHandler env caches request).caches =
      cachesPut (cachesOpen caches CACHE_NAME) CACHE_NAME request response := by
    unfold fetchHandler
    simp [hm, hfetch, hstatus, htype, hopen, hput]
  have hresp : (fetchHandler env caches request).respondWith = .ok (some response) := by
    unfold fetchHandler
    simp [hm, hfetch, hstatus, htype]
  refine ⟨hresp, ?_⟩
  have hnone : ∀ c ∈ caches, c.match request = none :=
    fun c hc => Cache.match_none_of_no_entry (hmiss c hc)
  have hhit : cachesMatch (fetchHandler env caches request).caches request = some response := by
    rw [hcaches]
    exact cachesMatch_cachesPut response (cachesOpen_match_none CACHE_NAME hnone)
      (cachesOpen_exists caches CACHE_NAME)
  generalize (fetchHandler env caches request).caches = after at hhit
  unfold fetchHandler
  rw [hhit]

theorem fetch_write_through_witness :
    (fetchHandler
        { fetch := fun _ => .ok (some ⟨200, "basic", "body"⟩), openOk := fun _ => true,
          putOk := fun _ _ => true } [] (Request.get "/js/main.js")).respondWith
      = .ok (some ⟨200, "basic", "body"⟩) ∧
    fetchHandler indexFetchFails
        (fetchHandler
          { fetch := fun _ => .ok (some ⟨200, "basic", "body"⟩), openOk := fun _ => true,
            putOk := fun _ _ => true } [] (Request.get "/js/main.js")).caches
        (Request.get "/js/main.js") =
      { respondWith := .ok (some ⟨200, "basic", "body"⟩),
        caches := (fetchHandler
          { fetch := fun _ => .ok (some ⟨200, "basic", "body"⟩), openOk := fun _ => true,
            putOk := fun _ _ => true } [] (Request.get "/js/main.js")).caches,
        fetched := [] } :=
  fetch_write_through
    { fetch := fun _ => .ok (some ⟨200, "basic", "body"⟩), openOk := fun _ => true,
      putOk := fun _ _ => true }
    indexFetchFails [] (Request.get "/js/main.js") ⟨200, "basic", "body"⟩
    (fun _ hc => absurd hc (List.not_mem_nil _)) rfl rfl rfl rfl rfl

/-- C3: no write for a response that is not cacheable. For every cache-miss
request whose fetch does not yield a response with status 200 and type `basic`
(another type, another status, no response, or a rejected fetch), the cache
storage after the handler equals the storage before. -/
theorem fetch_not_cacheable_no_write (env : Env) (caches : CacheStorage) (request : Request)
    (hmiss : ∀ c ∈ caches, ∀ r, (request, r) ∉ c.entries)
    (hbad : ∀ r, env.fetch request = .ok (some r) → r.type ≠ "basic" ∨ r.status ≠ 200) :
    (fetchHandler env caches request).caches = caches := by
  have hm : cachesMatch caches request = none := cachesMatch_none_of_no_entry hmiss
  unfold fetchHandler
  rw [hm]
  cases hf : env.fetch request with
  | error e => rfl
  | ok v =>
    cases v with
    | none => rfl
    | some r =>
      have hor : r.status ≠ 200 ∨ r.type ≠ "basic" := (hbad r hf).symm
      simp only [if_pos hor]

theorem fetch_not_cacheable_no_write_witness :
    (fetchHandler
        { fetch := fun _ => .ok (some ⟨200, "opaque", ""⟩), openOk := fun _ => true,
          putOk := fun _ _ => true }
        staleOnly (Request.get "https://unpkg.com/aos@2.3.1/dist/aos.js")).caches = staleOnly :=
  fetch_not_cacheable_no_write
    { fetch := fun _ => .ok (some ⟨200, "opaque", ""⟩), openOk := fun _ => true,
      putOk := fun _ _ => true }
    staleOnly (Request.get "https://unpkg.com/aos@2.3.1/dist/aos.js")
    (fun c hc r hmem => by
      simp only [staleOnly, List.mem_singleton] at hc
      subst hc
      simp at hmem)
    (fun r hr => by
      simp only [Except.ok.injEq, Option.some.injEq] at hr
      subst hr
      exact Or.inl (by decide))

/-- C4, as stated, fails: `/index.html` is in `urlsToCache` and its fetch is
rejected, yet the promise the install listener gives to `event.waitUntil` is
fulfilled, because the listener's `.catch` handles the rejection of `addAll`. -/
theorem install_fulfilled_despite_fetch_failure :
    "/index.html" ∈ urlsToCache ∧
    indexFetchFails.fetch (Request.get "/index.html") = .error "TypeError: Failed to fetch" ∧
    (installHandler indexFetchFails []).waitUntil = .ok () ∧
    ¬ ∃ e, (installHandler indexFetchFails []).waitUntil = .error e := by
  have hw : (installHandler indexFetchFails []).waitUntil = .ok () :=
    installHandler_waitUntil indexFetchFails []
  refine ⟨by decide, rfl, hw, ?_⟩
  rintro ⟨e, he⟩
  rw [hw] at he
  cases he

/-- C4, amended: if the fetch of any URL of `urlsToCache` is rejected during the
install step, the bulk add `cache.addAll` is rejected as a whole and stores no
entry (the storage is what `caches.open` left: at most a new empty store), and
the listener's `.catch` handles the rejection, so the promise given to
`event.waitUntil` is fulfilled. -/
theorem install_fetch_failure_caught (env : Env) (caches : CacheStorage)
    (h : ∃ u ∈ urlsToCache, ∃ e, env.fetch (Request.get u) = .error e) :
    (∃ e, cacheAddAll env (cachesOpen caches CACHE_NAME) CACHE_NAME urlsToCache = .error e) ∧
    (installHandler env caches).waitUntil = .ok () ∧
    (installHandler env caches).caches =
      (if env.openOk CACHE_NAME then cachesOpen caches CACHE_NAME else caches) := by
  obtain ⟨e, he⟩ := cacheAddAll_rejects env (cachesOpen caches CACHE_NAME) CACHE_NAME
    urlsToCache h
  refine ⟨⟨e, he⟩, installHandler_waitUntil env caches, ?_⟩
  · unfold installHandler
    by_cases ho : env.openOk CACHE_NAME = true
    · simp only [ho, if_true, he]
    · simp only [ho]
      rfl

theorem install_fetch_failure_caught_witness :
    (∃ e, cacheAddAll indexFetchFails (cachesOpen staleOnly CACHE_NAME) CACHE_NAME urlsToCache
      = .error e) ∧
    (installHandler indexFetchFails staleOnly).waitUntil = .ok () ∧
    (installHandler indexFetchFails staleOnly).caches =
      (if indexFetchFails.openOk CACHE_NAME then cachesOpen staleOnly CACHE_NAME
        else staleOnly) :=
  install_fetch_failure_caught indexFetchFails staleOnly
    ⟨"/index.html", by decide, "TypeError: Failed to fetch", rfl⟩

/-- C5, as stated, fails: when only a store of an earlier generation exists before
activation, the enumeration after the activate handler yields no name at all,
not the single name `portfolio-cache-v1`. -/
theorem stale_only_activation_leaves_no_name :
    cachesKeys staleOnly = ["portfolio-cache-v0"] ∧
    cachesKeys (activateHandler staleOnly).caches = [] ∧
    cachesKeys (activateHandler staleOnly).caches ≠ [CACHE_NAME] := by
  have h : cachesKeys (activateHandler staleOnly).caches = [] := by
    rw [activate_caches]
    decide
  refine ⟨rfl, h, ?_⟩
  rw [h]
  simp

/-- C5, amended: for every cache storage with pairwise distinct store names,
after the activate handler no differently-named store remains, and the
enumeration of names yields exactly the one name `portfolio-cache-v1` when a
store of that name existed before activation, and no name otherwise. -/
theorem activate_keys (caches : CacheStorage) (hdistinct : (cachesKeys caches).Nodup) :
    (∀ n ∈ cachesKeys (activateHandler caches).caches, n = CACHE_NAME) ∧
    cachesKeys (activateHandler caches).caches =
      (if CACHE_NAME ∈ cachesKeys caches then [CACHE_NAME] else []) := by
  have hkeys : cachesKeys (activateHandler caches).caches =
      (cachesKeys caches).filter (fun n => n = CACHE_NAME) := by
    rw [activate_caches]
    unfold cachesKeys
    rw [List.filter_map]
    rfl
  constructor
  · intro n hn
    rw [hkeys] at hn
    simpa using (List.mem_filter.mp hn).2
  · rw [hkeys]
    generalize cachesKeys caches = names at hdistinct
    induction names with
    | nil => simp
    | cons a rest ih =>
      have hnd := List.nodup_cons.mp hdistinct
      by_cases ha : a = CACHE_NAME
      · subst ha
        have hrest : rest.filter (fun n => decide (n = CACHE_NAME)) = [] := by
          rw [List.filter_eq_nil_iff]
          intro b hb
          have : b ≠ CACHE_NAME := fun hbe => hnd.1 (hbe ▸ hb)
          simpa using this
        simp [List.filter_cons, hrest]
      · have ha2 : ¬ CACHE_NAME = a := fun h => ha h.symm
        simp only [List.filter_cons, ha, decide_False, List.mem_cons, ha2, false_or]
        simpa using ih hnd.2

theorem activate_keys_witness :
    (∀ n ∈ cachesKeys (activateHandler
        [Cache.mk "portfolio-cache-v0" [], Cache.mk CACHE_NAME []]).caches, n = CACHE_NAME) ∧
    cachesKeys (activateHandler
        [Cache.mk "portfolio-cache-v0" [], Cache.mk CACHE_NAME []]).caches =
      (if CACHE_NAME ∈ cachesKeys [Cache.mk "portfolio-cache-v0" [], Cache.mk CACHE_NAME []]
        then [CACHE_NAME] else []) :=
  activate_keys [Cache.mk "portfolio-cache-v0" [], Cache.mk CACHE_NAME []] (by decide)

/-- C6: the activate handler deletes exactly the stores whose name differs from
`CACHE_NAME`: the storage afterwards is the storage before filtered by
`name = CACHE_NAME`, so are the enumerated names, and every store named
`CACHE_NAME` is still there with its entries unchanged. -/
theorem activate_deletes_exactly_others (caches : CacheStorage) :
    (activateHandler caches).caches = caches.filter (fun c => c.name = CACHE_NAME) ∧
    cachesKeys (activateHandler caches).caches =
      (cachesKeys caches).filter (fun n => n = CACHE_NAME) ∧
    (∀ c ∈ caches, c.name = CACHE_NAME → c ∈ (activateHandler caches).caches) ∧
    (∀ c ∈ caches, c.name ≠ CACHE_NAME → c ∉ (activateHandler caches).caches) := by
  have hc := activate_caches caches
  refine ⟨hc, ?_, ?_, ?_⟩
  · rw [hc]
    unfold cachesKeys
    rw [List.filter_map]
    rfl
  · intro c hmem hname
    rw [hc]
    exact List.mem_filter.mpr ⟨hmem, by simpa using hname⟩
  · intro c _ hname hin
    rw [hc] at hin
    have := (List.mem_filter.mp hin).2
    exact hname (by simpa using this)

/-! The contact handler's properties -/

theorem mailOptions_strings (env : ContactEnv) (name email subject message : String) :
    ∃ o, mailOptions env ⟨.string name, .string email, .string subject, .string message⟩
      = .ok o := by
  exact ⟨_, rfl⟩

theorem contactLogLine_strings (env : ContactEnv) (name email subject message : String) :
    ∃ l, contactLogLine env ⟨.string name, .string email, .string subject, .string message⟩
      = .ok l := by
  exact ⟨_, rfl⟩

theorem contactHandler_valid (env : ContactEnv) (name email subject message : String)
    (hname : name ≠ "") (hemail : email ≠ "") (hsubject : subject ≠ "")
    (hmessage : message ≠ "") (hmatch : emailRegexTest email = true)
    (o : MailOptions)
    (ho : mailOptions env ⟨.string name, .string email, .string subject, .string message⟩
      = .ok o) :
    contactHandler env ⟨.string name, .string email, .string subject, .string message⟩ =
      match env.sendMail o with
      | .error e => contactCatch e [o]
      | .ok () =>
        match contactLogLine env
          ⟨.string name, .string email, .string subject, .string message⟩ with
        | .error e => contactCatch e [o]
        | .ok line =>
          { response :=
              { status := 200,
                body := [("success", .bool true),
                  ("message", .str "Message sent successfully! I will get back to you soon.")] }
            sendMailCalls := [o]
            console := [line] } := by
  unfold contactHandler
  simp only [JsValue.truthy, emailRegexTestValue, JsValue.toJsString, hmatch, ho]
  simp [hname, hemail, hsubject, hmessage]

/-- C7: for every contact submission whose name, email, subject and message are
all non-empty (truthy) but whose email does not pass `emailRegex.test`, the
handler of `POST /api/contact` responds with status 400 and an error body, and
makes no call to `transporter.sendMail`. -/
theorem contact_invalid_email (env : ContactEnv) (body : ContactBody)
    (hname : body.name.truthy = true) (hemail : body.email.truthy = true)
    (hsubject : body.subject.truthy = true) (hmessage : body.message.truthy = true)
    (hbad : emailRegexTestValue body.email = .ok false) :
    (contactHandler env body).response =
      { status := 400, body := [("error", .str "Please provide a valid email address")] } ∧
    (contactHandler env body).sendMailCalls = [] := by
  unfold contactHandler
  simp [hname, hemail, hsubject, hmessage, hbad]

theorem contact_invalid_email_witness :
    (contactHandler { EMAIL_USER := none, sendMail := fun _ => .ok (), now := "" }
        ⟨.string "A", .string "not-an-email", .string "Hi", .string "Hello there"⟩).response =
      { status := 400, body := [("error", .str "Please provide a valid email address")] } ∧
    (contactHandler { EMAIL_USER := none, sendMail := fun _ => .ok (), now := "" }
        ⟨.string "A", .string "not-an-email", .string "Hi", .string "Hello there"⟩).sendMailCalls
      = [] :=
  contact_invalid_email { EMAIL_USER := none, sendMail := fun _ => .ok (), now := "" }
    ⟨.string "A", .string "not-an-email", .string "Hi", .string "Hello there"⟩
    (by decide) (by decide) (by decide) (by decide) (by decide)

/-- C8: for every contact submission whose name, email, subject and message are
non-empty strings and whose email passes the email pattern, when the mail
provider accepts the message the handler of `POST /api/contact` responds (status
200) with the body `success: true` plus a message, and calls
`transporter.sendMail` exactly once, with the prepared `mailOptions`. -/
theorem contact_valid_success (env : ContactEnv) (name email subject message : String)
    (hname : name ≠ "") (hemail : email ≠ "") (hsubject : subject ≠ "")
    (hmessage : message ≠ "") (hmatch : emailRegexTest email = true)
    (haccept : ∀ o,
      mailOptions env ⟨.string name, .string email, .string subject, .string message⟩ = .ok o →
      env.sendMail o = .ok ()) :
    (contactHandler env ⟨.string name, .string email, .string subject, .string message⟩).response
      = { status := 200,
          body := [("success", .bool true),
            ("message", .str "Message sent successfully! I will get back to you soon.")] } ∧
    ∃ o, mailOptions env ⟨.string name, .string email, .string subject, .string message⟩
        = .ok o ∧
      (contactHandler env
        ⟨.string name, .string email, .string subject, .string message⟩).sendMailCalls = [o] := by
  obtain ⟨o, ho⟩ := mailOptions_strings env name email subject message
  obtain ⟨l, hl⟩ := contactLogLine_strings env name email subject message
  rw [contactHandler_valid env name email subject message hname hemail hsubject hmessage
    hmatch o ho, haccept o ho, hl]
  exact ⟨rfl, o, ho, rfl⟩

theorem contact_valid_success_witness :
    (contactHandler { EMAIL_USER := none, sendMail := fun _ => .ok (), now := "" }
        ⟨.string "A", .string "a@b.com", .string "Hi", .string "Hello there"⟩).response
      = { status := 200,
          body := [("success", .bool true),
            ("message", .str "Message sent successfully! I will get back to you soon.")] } ∧
    ∃ o, mailOptions { EMAIL_USER := none, sendMail := fun _ => .ok (), now := "" }
          ⟨.string "A", .string "a@b.com", .string "Hi", .string "Hello there"⟩ = .ok o ∧
      (contactHandler { EMAIL_USER := none, sendMail := fun _ => .ok (), now := "" }
        ⟨.string "A", .string "a@b.com", .string "Hi", .string "Hello there"⟩).sendMailCalls
        = [o] :=
  contact_valid_success { EMAIL_USER := none, sendMail := fun _ => .ok (), now := "" }
    "A" "a@b.com" "Hi" "Hello there" (by decide) (by decide) (by decide) (by decide)
    (by decide) (fun _ _ => rfl)

/-- C9: for every contact submission in which at least one of name, email,
subject, message is missing or empty (falsy), the handler of `POST /api/contact`
responds with status 400 and the body `error: 'All fields are required'` and
makes no call to `transporter.sendMail`. The email is not looked at: the answer
is the same whether or not the email would pass the pattern, so this check
comes before the email-format check. -/
theorem contact_missing_field (env : ContactEnv) (body : ContactBody)
    (hfalsy : body.name.truthy = false ∨ body.email.truthy = false ∨
      body.subject.truthy = false ∨ body.message.truthy = false) :
    contactHandler env body =
      { response := { status := 400, body := [("error", .str "All fields are required")] },
        sendMailCalls := [],
        console := [] } := by
  unfold contactHandler
  rcases hfalsy with h | h | h | h <;> simp [h]

theorem contact_missing_field_witness :
    contactHandler { EMAIL_USER := none, sendMail := fun _ => .ok (), now := "" }
        ⟨.undefined, .string "not-an-email", .string "Hi", .string ""⟩ =
      { response := { status := 400, body := [("error", .str "All fields are required")] },
        sendMailCalls := [],
        console := [] } :=
  contact_missing_field { EMAIL_USER := none, sendMail := fun _ => .ok (), now := "" }
    ⟨.undefined, .string "not-an-email", .string "Hi", .string ""⟩ (Or.inl rfl)

/-- C10: for every valid contact submission (non-empty strings, email passing the
pattern), if the call to the mail provider fails, the handler of
`POST /api/contact` responds with status 500 and the fixed body
`error: 'Failed to send message. Please try again later.'`, whatever the
failure was, and `transporter.sendMail` has been called exactly once. -/
theorem contact_send_failure (env : ContactEnv) (name email subject message : String)
    (hname : name ≠ "") (hemail : email ≠ "") (hsubject : subject ≠ "")
    (hmessage : message ≠ "") (hmatch : emailRegexTest email = true)
    (hfail : ∀ o,
      mailOptions env ⟨.string name, .string email, .string subject, .string message⟩ = .ok o →
      ∃ e, env.sendMail o = .error e) :
    (contactHandler env ⟨.string name, .string email, .string subject, .string message⟩).response
      = { status := 500,
          body := [("error", .str "Failed to send message. Please try again later.")] } ∧
    ∃ o, mailOptions env ⟨.string name, .string email, .string subject, .string message⟩
        = .ok o ∧
      (contactHandler env
        ⟨.string name, .string email, .string subject, .string message⟩).sendMailCalls = [o] := by
  obtain ⟨o, ho⟩ := mailOptions_strings env name email subject message
  obtain ⟨e, he⟩ := hfail o ho
  rw [contactHandler_valid env name email subject message hname hemail hsubject hmessage
    hmatch o ho, he]
  exact ⟨rfl, o, ho, rfl⟩

theorem contact_send_failure_witness :
    (contactHandler
        { EMAIL_USER := none, sendMail := fun _ => .error "ECONNREFUSED", now := "" }
        ⟨.string "A", .string "a@b.com", .string "Hi", .string "Hello there"⟩).response
      = { status := 500,
          body := [("error", .str "Failed to send message. Please try again later.")] } ∧
    ∃ o, mailOptions { EMAIL_USER := none, sendMail := fun _ => .error "ECONNREFUSED", now := "" }
          ⟨.string "A", .string "a@b.com", .string "Hi", .string "Hello there"⟩ = .ok o ∧
      (contactHandler
        { EMAIL_USER := none, sendMail := fun _ => .error "ECONNREFUSED", now := "" }
        ⟨.string "A", .string "a@b.com", .string "Hi", .string "Hello there"⟩).sendMailCalls
        = [o] :=
  contact_send_failure
    { EMAIL_USER := none, sendMail := fun _ => .error "ECONNREFUSED", now := "" }
    "A" "a@b.com" "Hi" "Hello there" (by decide) (by decide) (by decide) (by decide)
    (by decide) (fun _ _ => ⟨_, rfl⟩)

/-! The fetch handler on a miss -/

/-- C11: for every cache-miss request the promise given to `event.respondWith`
settles exactly as the network fetch does: a response, cacheable or not (or an
absent one), is handed on as it is and a rejection is handed on with the same
reason; one network fetch is issued, for that request. -/
theorem fetch_miss_passes_through (env : Env) (caches : CacheStorage) (request : Request)
    (hmiss : ∀ c ∈ caches, ∀ r, (request, r) ∉ c.entries) :
    (fetchHandler env caches request).respondWith = env.fetch request ∧
    (fetchHandler env caches request).fetched = [request] := by
  have hm : cachesMatch caches request = none := cachesMatch_none_of_no_entry hmiss
  unfold fetchHandler
  rw [hm]
  cases hf : env.fetch request with
  | error e => exact ⟨rfl, rfl⟩
  | ok v =>
    cases v with
    | none => exact ⟨rfl, rfl⟩
    | some r =>
      by_cases hor : r.status ≠ 200 ∨ r.type ≠ "basic"
      · simp only [if_pos hor, and_self]
      · simp only [if_neg hor, and_self]

theorem fetch_miss_passes_through_witness :
    (fetchHandler indexFetchFails staleOnly (Request.get "/index.html")).respondWith =
      indexFetchFails.fetch (Request.get "/index.html") ∧
    (fetchHandler indexFetchFails staleOnly (Request.get "/index.html")).fetched =
      [Request.get "/index.html"] :=
  fetch_miss_passes_through indexFetchFails staleOnly (Request.get "/index.html")
    (fun c hc r hmem => by
      simp only [staleOnly, List.mem_singleton] at hc
      subst hc
      simp at hmem)

/-- C12: the response handed to the page does not depend on the cache write.
For every cache-miss request with a cacheable network response (status 200,
type `basic`), two environments that answer the fetch alike give the same
settled promise to `event.respondWith`, the fetched response, whether
`caches.open` and `cache.put` succeed or fail in either of them. -/
theorem fetch_response_independent_of_write (env env2 : Env) (caches : CacheStorage)
    (request : Request) (response : Response)
    (hmiss : ∀ c ∈ caches, ∀ r, (request, r) ∉ c.entries)
    (hfetch : env.fetch request = .ok (some response))
    (hsame : env2.fetch request = env.fetch request)
    (_hstatus : response.status = 200) (_htype : response.type = "basic") :
    (fetchHandler env caches request).respondWith = .ok (some response) ∧
    (fetchHandler env2 caches request).respondWith =
      (fetchHandler env caches request).respondWith := by
  have h1 := (fetch_miss_passes_through env caches request hmiss).1
  have h2 := (fetch_miss_passes_through env2 caches request hmiss).1
  rw [h1, h2, hsame, hfetch]
  exact ⟨rfl, rfl⟩

theorem fetch_response_independent_of_write_witness :
    (fetchHandler
        { fetch := fun _ => .ok (some ⟨200, "basic", "body"⟩), openOk := fun _ => true,
          putOk := fun _ _ => true } staleOnly (Request.get "/js/main.js")).respondWith
      = .ok (some ⟨200, "basic", "body"⟩) ∧
    (fetchHandler
        { fetch := fun _ => .ok (some ⟨200, "basic", "body"⟩), openOk := fun _ => false,
          putOk := fun _ _ => false } staleOnly (Request.get "/js/main.js")).respondWith =
      (fetchHandler
        { fetch := fun _ => .ok (some ⟨200, "basic", "body"⟩), openOk := fun _ => true,
          putOk := fun _ _ => true } staleOnly (Request.get "/js/main.js")).respondWith :=
  fetch_response_independent_of_write
    { fetch := fun _ => .ok (some ⟨200, "basic", "body"⟩), openOk := fun _ => true,
      putOk := fun _ _ => true }
    { fetch := fun _ => .ok (some ⟨200, "basic", "body"⟩), openOk := fun _ => false,
      putOk := fun _ _ => false }
    staleOnly (Request.get "/js/main.js") ⟨200, "basic", "body"⟩
    (fun c hc r hmem => by
      simp only [staleOnly, List.mem_singleton] at hc
      subst hc
      simp at hmem)
    rfl rfl rfl rfl

/-! The upload route -/

/-- C13, at a failing input: the file `photo.pngx` sent with the type
`image/png` has the lower-cased extension `.pngx`, which is none of the listed
extensions, and `fileFilter` accepts it, because the pattern is searched
anywhere in the extension. -/
theorem fileFilter_accepts_unlisted_extension :
    toLowerCase (extname "photo.pngx") = ".pngx" ∧
    "pngx" ∉ allowedTypes ∧
    fileFilter { originalname := "photo.pngx", mimetype := "image/png", size := 1 } = .ok true := by
  refine ⟨by decide, by decide, by decide⟩

/-- C14, at a failing input: `fileFilter` rejects the file `notes.txt` of type
`text/plain`, and the route answers with status 500 and the body of the
generic branch of the error middleware, not with a 4xx status. -/
theorem upload_rejected_type_answers_500 :
    fileFilter { originalname := "notes.txt", mimetype := "text/plain", size := 12 } =
      .error "Invalid file type. Only images, documents, and GIS files are allowed." ∧
    (uploadGisRoute { nodeEnv := some "production", now := "", uniqueSuffix := "" }
      (some { originalname := "notes.txt", mimetype := "text/plain", size := 12 })).status = 500 ∧
    ¬ (400 ≤ (uploadGisRoute { nodeEnv := some "production", now := "", uniqueSuffix := "" }
      (some { originalname := "notes.txt", mimetype := "text/plain", size := 12 })).status ∧
      (uploadGisRoute { nodeEnv := some "production", now := "", uniqueSuffix := "" }
      (some { originalname := "notes.txt", mimetype := "text/plain", size := 12 })).status < 500) := by
  refine ⟨by decide, by decide, by decide⟩

/-- C15: the size ceiling `fileSize` is `10 * 1024 * 1024` bytes; the error
middleware answers a `MulterError` with code `LIMIT_FILE_SIZE` with status 400
and the body `error: 'File too large. Maximum size is 10MB.'`, and every other
error with status 500; and an upload that `fileFilter` lets in and that exceeds
the ceiling gets that 400 answer from the route. -/
theorem upload_size_ceiling (nodeEnv : Option String) (error : ServerError)
    (env : UploadEnv) (file : UploadFile) :
    fileSize = 10 * 1024 * 1024 ∧ fileSize = 10485760 ∧
    (error.isMulterError = true ∧ error.code = some "LIMIT_FILE_SIZE" →
      errorMiddleware nodeEnv error =
        { status := 400,
          body := .obj [("error", .str "File too large. Maximum size is 10MB.")] }) ∧
    (¬ (error.isMulterError = true ∧ error.code = some "LIMIT_FILE_SIZE") →
      (errorMiddleware nodeEnv error).status = 500) ∧
    (fileFilter file = .ok true → fileSize < file.size →
      uploadGisRoute env (some file) =
        { status := 400,
          body := .obj [("error", .str "File too large. Maximum size is 10MB.")] }) := by
  refine ⟨rfl, by decide, ?_, ?_, ?_⟩
  · rintro ⟨h1, h2⟩
    simp [errorMiddleware, h1, h2]
  · intro h
    unfold errorMiddleware
    by_cases hm : error.isMulterError = true
    · have hc : ¬ error.code = some "LIMIT_FILE_SIZE" := fun hc => h ⟨hm, hc⟩
      simp [hm, hc]
    · simp [hm]
  · intro hok hbig
    unfold uploadGisRoute
    simp only [hok]
    have : file.size > fileSize := hbig
    simp [this, errorMiddleware]

theorem upload_size_ceiling_witness :
    errorMiddleware none (ServerError.mk true (some "LIMIT_FILE_SIZE") "File too large") =
      { status := 400,
        body := .obj [("error", .str "File too large. Maximum size is 10MB.")] } ∧
    (errorMiddleware none (ServerError.mk true (some "LIMIT_UNEXPECTED_FILE")
      "Unexpected field")).status = 500 ∧
    uploadGisRoute { nodeEnv := none, now := "", uniqueSuffix := "" }
        (some (UploadFile.mk "map.png" "image/png" 10485761)) =
      { status := 400,
        body := .obj [("error", .str "File too large. Maximum size is 10MB.")] } :=
  ⟨(upload_size_ceiling none (ServerError.mk true (some "LIMIT_FILE_SIZE") "File too large")
      { nodeEnv := none, now := "", uniqueSuffix := "" }
      (UploadFile.mk "map.png" "image/png" 10485761)).2.2.1 ⟨rfl, rfl⟩,
    (upload_size_ceiling none (ServerError.mk true (some "LIMIT_UNEXPECTED_FILE")
      "Unexpected field") { nodeEnv := none, now := "", uniqueSuffix := "" }
      (UploadFile.mk "map.png" "image/png" 10485761)).2.2.2.1 (by decide),
    (upload_size_ceiling none (ServerError.mk true (some "LIMIT_FILE_SIZE") "File too large")
      { nodeEnv := none, now := "", uniqueSuffix := "" }
      (UploadFile.mk "map.png" "image/png" 10485761)).2.2.2.2 (by decide) (by decide)⟩

theorem fileFilter_cases (file : UploadFile) :
    fileFilter file = .ok true ∨
    fileFilter file =
      .error "Invalid file type. Only images, documents, and GIS files are allowed." := by
  unfold fileFilter
  by_cases h : (allowedTypesTest file.mimetype &&
      allowedTypesTest (toLowerCase (extname file.originalname))) = true
  · left
    simp only [h, if_true]
  · right
    simp only [h]
    rfl

theorem errorBody_ne {a b : String} (h : a ≠ b) (s1 s2 : Nat) :
    (JsonResponse.mk s1 (.obj [("error", .str a)])) ≠
      JsonResponse.mk s2 (.obj [("error", .str b)]) := by
  intro heq
  injection heq with _ hbody
  injection hbody with hfields
  injection hfields with hhead _
  injection hhead with _ hval
  injection hval with hs
  exact h hs

/-- C20, as stated, fails: the file `roads.geojson` of type `application/geojson`
passes `fileFilter` but is larger than `fileSize`, so no file is stored and
`req.file` is never set; the request is answered by the error middleware with
status 400 and 'File too large. Maximum size is 10MB.', not with
'No file uploaded'. -/
theorem upload_oversize_not_no_file :
    fileFilter (UploadFile.mk "roads.geojson" "application/geojson" 20000000) = .ok true ∧
    fileSize < 20000000 ∧
    uploadGisRoute { nodeEnv := none, now := "", uniqueSuffix := "" }
        (some (UploadFile.mk "roads.geojson" "application/geojson" 20000000)) =
      { status := 400, body := .obj [("error", .str "File too large. Maximum size is 10MB.")] } ∧
    uploadGisRoute { nodeEnv := none, now := "", uniqueSuffix := "" }
        (some (UploadFile.mk "roads.geojson" "application/geojson" 20000000)) ≠
      { status := 400, body := .obj [("error", .str "No file uploaded")] } := by
  have hf : fileFilter (UploadFile.mk "roads.geojson" "application/geojson" 20000000) = .ok true := by decide
  have hr : uploadGisRoute { nodeEnv := none, now := "", uniqueSuffix := "" }
      (some (UploadFile.mk "roads.geojson" "application/geojson" 20000000)) =
      { status := 400,
        body := .obj [("error", .str "File too large. Maximum size is 10MB.")] } := by
    unfold uploadGisRoute
    simp only [hf]
    have hbig : (20000000 : Nat) > fileSize := by decide
    simp [hbig, errorMiddleware]
  refine ⟨hf, by decide, hr, ?_⟩
  rw [hr]
  exact errorBody_ne (by decide) 400 400

/-- C20, amended: on the route `POST /api/upload/gis`, a request without a file
part reaches the handler with `req.file` absent and is answered with status
400 and `error: 'No file uploaded'`, and that answer is given to no request
that sends a file part; a file that passes the filter but exceeds the size
ceiling is answered with status 400 and 'File too large. Maximum size is
10MB.'; a file that passes the filter within the ceiling is stored, and the
response (status 200) has `success: true` and a file record whose `filename`,
`originalName`, `size`, `mimetype` and `path` are those of the stored file. -/
theorem upload_route_responses (env : UploadEnv) (part : Option UploadFile) :
    (uploadGisRoute env part =
        { status := 400, body := .obj [("error", .str "No file uploaded")] } ↔ part = none) ∧
    (∀ file, part = some file → fileFilter file = .ok true → fileSize < file.size →
      uploadGisRoute env part =
        { status := 400,
          body := .obj [("error", .str "File too large. Maximum size is 10MB.")] }) ∧
    (∀ file, part = some file → fileFilter file = .ok true → file.size ≤ fileSize →
      uploadGisRoute env part = uploadGisHandler env.now (some (storedFile env file)) ∧
      uploadGisRoute env part =
        { status := 200,
          body := .obj
            [("success", .bool true), ("message", .str "File uploaded successfully"),
             ("file", .obj
                [("filename", .str (storedFile env file).filename),
                 ("originalName", .str file.originalname),
                 ("size", .num file.size 0),
                 ("mimetype", .str file.mimetype),
                 ("uploadDate", .str env.now),
                 ("path", .str ("uploads/" ++ (storedFile env file).filename))])] }) := by
  have hbig : ∀ file, fileFilter file = .ok true → fileSize < file.size →
      uploadGisRoute env (some file) =
        { status := 400,
          body := .obj [("error", .str "File too large. Maximum size is 10MB.")] } := by
    intro file hok hlt
    unfold uploadGisRoute
    simp only [hok]
    have : file.size > fileSize := hlt
    simp [this, errorMiddleware]
  have hsmall : ∀ file, fileFilter file = .ok true → file.size ≤ fileSize →
      uploadGisRoute env (some file) = uploadGisHandler env.now (some (storedFile env file)) := by
    intro file hok hle
    unfold uploadGisRoute
    simp only [hok]
    have : ¬ file.size > fileSize := by omega
    simp [this]
  refine ⟨⟨?_, ?_⟩, ?_, ?_⟩
  · intro hresp
    cases part with
    | none => rfl
    | some file =>
      exfalso
      rcases fileFilter_cases file with hf | hf
      · by_cases hlt : fileSize < file.size
        · rw [hbig file hf hlt] at hresp
          exact errorBody_ne (by decide) 400 400 hresp
        · have h200 : (uploadGisRoute env (some file)).status = 200 := by
            rw [hsmall file hf (by omega)]
            rfl
          rw [hresp] at h200
          cases h200
      · have h500 : (uploadGisRoute env (some file)).status = 500 := by
          unfold uploadGisRoute
          simp [hf, errorMiddleware]
        rw [hresp] at h500
        cases h500
  · intro hnone
    subst hnone
    rfl
  · intro file hpart hok hlt
    subst hpart
    exact hbig file hok hlt
  · intro file hpart hok hle
    subst hpart
    exact ⟨hsmall file hok hle, by rw [hsmall file hok hle]; rfl⟩

theorem upload_route_responses_witness :
    uploadGisRoute { nodeEnv := none, now := "2024-01-01T00:00:00.000Z", uniqueSuffix := "1-2" }
        none =
      { status := 400, body := .obj [("error", .str "No file uploaded")] } ∧
    uploadGisRoute { nodeEnv := none, now := "2024-01-01T00:00:00.000Z", uniqueSuffix := "1-2" }
        (some (UploadFile.mk "parcels.kml" "application/vnd.google-earth.kml+xml" 20000000)) =
      { status := 400,
        body := .obj [("error", .str "File too large. Maximum size is 10MB.")] } ∧
    uploadGisRoute { nodeEnv := none, now := "2024-01-01T00:00:00.000Z", uniqueSuffix := "1-2" }
        (some (UploadFile.mk "parcels.kml" "application/vnd.google-earth.kml+xml" 2048)) =
      uploadGisHandler "2024-01-01T00:00:00.000Z"
        (some (storedFile
          { nodeEnv := none, now := "2024-01-01T00:00:00.000Z", uniqueSuffix := "1-2" }
          (UploadFile.mk "parcels.kml" "application/vnd.google-earth.kml+xml" 2048))) :=
  ⟨(upload_route_responses
      { nodeEnv := none, now := "2024-01-01T00:00:00.000Z", uniqueSuffix := "1-2" } none).1.mpr
      rfl,
    (upload_route_responses
      { nodeEnv := none, now := "2024-01-01T00:00:00.000Z", uniqueSuffix := "1-2" }
      (some (UploadFile.mk "parcels.kml" "application/vnd.google-earth.kml+xml" 20000000))).2.1
      _ rfl (by decide) (by decide),
    ((upload_route_responses
      { nodeEnv := none, now := "2024-01-01T00:00:00.000Z", uniqueSuffix := "1-2" }
      (some (UploadFile.mk "parcels.kml" "application/vnd.google-earth.kml+xml" 2048))).2.2
      _ rfl (by decide) (by decide)).1⟩

/-! The repository listing and the GIS analysis -/

/-- C17: for `GET /api/github/repos`, whenever the upstream call fails (loading
the fetch module or the fetch itself is rejected), or the payload
cannot be decoded, or the decoded payload is not a list, the response is status
500 with the fixed body `error: 'Failed to fetch GitHub repositories'`, the same
for every such failure. -/
theorem github_failure_fixed_response (env : GithubEnv)
    (hfail : (∃ e, env.fetchModule = .error e) ∨
      (∃ e, env.fetch "https://api.github.com/users/AnnShrestha/repos?sort=updated&per_page=10"
        = .error e) ∨
      (∃ e, env.fetch "https://api.github.com/users/AnnShrestha/repos?sort=updated&per_page=10"
        = .ok (.error e)) ∨
      (∃ repos,
        env.fetch "https://api.github.com/users/AnnShrestha/repos?sort=updated&per_page=10"
          = .ok (.ok repos) ∧ ∀ items, repos ≠ .arr items)) :
    githubReposHandler env =
      { status := 500, body := .obj [("error", .str "Failed to fetch GitHub repositories")] } := by
  unfold githubReposHandler
  cases himp : env.fetchModule with
  | error e => rfl
  | ok u =>
    cases u
    simp only
    rcases hfail with ⟨e, he⟩ | ⟨e, he⟩ | ⟨e, he⟩ | ⟨repos, hr, hnot⟩
    · rw [himp] at he
      cases he
    · rw [he]
      rfl
    · rw [he]
      rfl
    · rw [hr]
      cases repos with
      | arr items => exact absurd rfl (hnot items)
      | _ => rfl

theorem github_failure_fixed_response_witness :
    githubReposHandler
        { fetchModule := .ok (),
          fetch := fun _ => .ok (.ok (.obj [("message", .str "API rate limit exceeded")])) } =
      { status := 500, body := .obj [("error", .str "Failed to fetch GitHub repositories")] } :=
  github_failure_fixed_response
    { fetchModule := .ok (),
      fetch := fun _ => .ok (.ok (.obj [("message", .str "API rate limit exceeded")])) }
    (Or.inr (Or.inr (Or.inr ⟨_, rfl, fun _ h => Json.noConfusion h⟩)))

/-- C18: for every request body of `POST /api/gis/analyze` (an object, or any
value other than `undefined` and `null`), the response has `status: 'completed'`
and the same `results` whatever the input: area `1234.56`, perimeter `789.12`,
the centroid, `crs` and `units`; `dataType`, `analysisType` and `parameters`
are the values read from the body, unchanged. -/
theorem gis_analyze_canned (nowMillis nowIso : String) (body : Json)
    (hbody : body ≠ .undefined ∧ body ≠ .null) :
    ∃ dataType analysisType parameters,
      body.prop "dataType" = .ok dataType ∧
      body.prop "analysisType" = .ok analysisType ∧
      body.prop "parameters" = .ok parameters ∧
      gisAnalyzeHandler nowMillis nowIso body =
        { status := 200,
          body := .obj
            [("id", .str nowMillis),
             ("dataType", dataType),
             ("analysisType", analysisType),
             ("parameters", parameters),
             ("status", .str "completed"),
             ("results", .obj
                [("area", .num 123456 2),
                 ("perimeter", .num 78912 2),
                 ("centroid", .obj [("x", .num (-718023) 4), ("y", .num 422619 4)]),
                 ("metadata", .obj
                    [("crs", .str "EPSG:4326"), ("units", .str "degrees"),
                     ("processedAt", .str nowIso)])])] } := by
  have hprop : ∀ key, ∃ v, body.prop key = .ok v := by
    intro key
    cases body with
    | undefined => exact absurd rfl hbody.1
    | null => exact absurd rfl hbody.2
    | _ => exact ⟨_, rfl⟩
  obtain ⟨d, hd⟩ := hprop "dataType"
  obtain ⟨a, ha⟩ := hprop "analysisType"
  obtain ⟨q, hq⟩ := hprop "parameters"
  refine ⟨d, a, q, hd, ha, hq, ?_⟩
  unfold gisAnalyzeHandler
  simp only [hd, ha, hq]
  rfl

theorem gis_analyze_canned_witness :
    ∃ dataType analysisType parameters,
      (Json.obj [("dataType", .str "raster"), ("parameters", .arr [.num 5 0])]).prop "dataType"
        = .ok dataType ∧
      (Json.obj [("dataType", .str "raster"), ("parameters", .arr [.num 5 0])]).prop
        "analysisType" = .ok analysisType ∧
      (Json.obj [("dataType", .str "raster"), ("parameters", .arr [.num 5 0])]).prop "parameters"
        = .ok parameters ∧
      gisAnalyzeHandler "1700000000000" "2023-11-14T22:13:20.000Z"
          (Json.obj [("dataType", .str "raster"), ("parameters", .arr [.num 5 0])]) =
        { status := 200,
          body := .obj
            [("id", .str "1700000000000"),
             ("dataType", dataType),
             ("analysisType", analysisType),
             ("parameters", parameters),
             ("status", .str "completed"),
             ("results", .obj
                [("area", .num 123456 2),
                 ("perimeter", .num 78912 2),
                 ("centroid", .obj [("x", .num (-718023) 4), ("y", .num 422619 4)]),
                 ("metadata", .obj
                    [("crs", .str "EPSG:4326"), ("units", .str "degrees"),
                     ("processedAt", .str "2023-11-14T22:13:20.000Z")])])] } :=
  gis_analyze_canned "1700000000000" "2023-11-14T22:13:20.000Z"
    (Json.obj [("dataType", .str "raster"), ("parameters", .arr [.num 5 0])])
    ⟨fun h => Json.noConfusion h, fun h => Json.noConfusion h⟩

/-! The install step when every fetch succeeds -/

theorem Cache.match_put_other (c : Cache) {k k2 : Request} (r2 : Response) (hk : k ≠ k2) :
    (c.put k2 r2).match k = c.match k := by
  unfold Cache.match Cache.put
  simp only [List.find?_append]
  have hd : decide (k2 = k) = false := decide_eq_false (fun h => hk h.symm)
  have hlast : [(k2, r2)].find? (fun e => decide (e.1 = k)) = none := by
    simp only [List.find?_cons, hd, List.find?_nil]
  have hfilter : (c.entries.filter (fun e => decide (e.1 ≠ k2))).find?
      (fun e => decide (e.1 = k)) = c.entries.find? (fun e => decide (e.1 = k)) := by
    rw [List.find?_filter]
    congr 1
    funext a
    by_cases ha : a.1 = k
    · simp [ha, hk]
    · simp [ha]
  rw [hfilter, hlast]
  simp

theorem foldl_put_name (l : List (Request × Response)) (c : Cache) :
    (l.foldl (fun acc p => acc.put p.1 p.2) c).name = c.name := by
  induction l generalizing c with
  | nil => rfl
  | cons p rest ih =>
    simp only [List.foldl_cons]
    rw [ih]
    rfl

theorem foldl_put_match (l : List (Request × Response)) (c : Cache) (k : Request)
    (r : Response) (hex : ∃ p ∈ l, p.1 = k) (hval : ∀ p ∈ l, p.1 = k → p.2 = r) :
    (l.foldl (fun acc p => acc.put p.1 p.2) c).match k = some r := by
  induction l using List.reverseRecOn with
  | nil => simp at hex
  | append_singleton init last ih =>
    rw [List.foldl_append]
    simp only [List.foldl_cons, List.foldl_nil]
    by_cases hlast : last.1 = k
    · have hr : last.2 = r := hval last (by simp) hlast
      rw [hlast, hr]
      exact Cache.match_put _ k r
    · rw [Cache.match_put_other _ _ (fun h => hlast h.symm)]
      apply ih
      · obtain ⟨p, hp, hpk⟩ := hex
        rcases List.mem_append.mp hp with h1 | h1
        · exact ⟨p, h1, hpk⟩
        · simp only [List.mem_singleton] at h1
          subst h1
          exact absurd hpk hlast
      · intro p hp hpk
        exact hval p (List.mem_append.mpr (Or.inl hp)) hpk

theorem foldl_cachesPut (l : List (Request × Response)) (name : String) (s : CacheStorage) :
    l.foldl (fun acc p => cachesPut acc name p.1 p.2) s =
      s.map (fun c => if c.name = name then l.foldl (fun acc p => acc.put p.1 p.2) c else c) := by
  induction l generalizing s with
  | nil => simp
  | cons p rest ih =>
    simp only [List.foldl_cons]
    rw [ih]
    unfold cachesPut
    rw [List.map_map]
    apply List.map_congr_left
    intro c _
    by_cases hn : c.name = name
    · have : (c.put p.1 p.2).name = name := hn
      simp [hn, this]
    · simp [hn]

theorem filterMap_length_eq {α β : Type} (f : α → Option β) (l : List α)
    (h : ∀ a ∈ l, ∃ b, f a = some b) : (l.filterMap f).length = l.length := by
  induction l with
  | nil => rfl
  | cons a rest ih =>
    obtain ⟨b, hb⟩ := h a (by simp)
    rw [List.filterMap_cons_some hb]
    simp only [List.length_cons]
    rw [ih (fun x hx => h x (by simp [hx]))]

/-- C16: after an install step in which every fetch of the allowlist succeeds
(each URL of `urlsToCache` yields a response with an `ok` status) and the cache
store can be opened and written, the promise given to `event.waitUntil` is
fulfilled and the store named `portfolio-cache-v1` exists and holds, for each of
the 22 URLs, an entry with the response fetched for it. -/
theorem install_success_caches_all (env : Env) (caches : CacheStorage)
    (hopen : env.openOk CACHE_NAME = true)
    (hfetch : ∀ u ∈ urlsToCache, ∃ r, env.fetch (Request.get u) = .ok (some r) ∧
      r.ok = true ∧ env.putOk (Request.get u) r = true) :
    urlsToCache.length = 22 ∧
    (installHandler env caches).waitUntil = .ok () ∧
    (∃ c ∈ (installHandler env caches).caches, c.name = CACHE_NAME) ∧
    ∀ c ∈ (installHandler env caches).caches, c.name = CACHE_NAME →
      ∀ u ∈ urlsToCache, ∃ r, env.fetch (Request.get u) = .ok (some r) ∧
        c.match (Request.get u) = some r ∧ (Request.get u, r) ∈ c.entries := by
  refine ⟨rfl, installHandler_waitUntil env caches, ?_⟩
  -- the entries that `addAll` writes
  let f : Request × Except String (Option Response) → Option (Request × Response) := fun p =>
    match p.2 with
    | .ok (some r) => if r.ok && env.putOk p.1 r then some (p.1, r) else none
    | _ => none
  let fetched := urlsToCache.map (fun u => (Request.get u, env.fetch (Request.get u)))
  let good := fetched.filterMap f
  have hf : ∀ u ∈ urlsToCache, ∀ r, env.fetch (Request.get u) = .ok (some r) →
      f (Request.get u, env.fetch (Request.get u)) = some (Request.get u, r) := by
    intro u hu r hr
    obtain ⟨r2, hr2, hok, hput⟩ := hfetch u hu
    rw [hr] at hr2
    simp only [Except.ok.injEq, Option.some.injEq] at hr2
    subst hr2
    simp only [f, hr, hok, hput, Bool.and_self, if_true]
  have hlen : good.length = fetched.length := by
    apply filterMap_length_eq
    intro a ha
    obtain ⟨u, hu, rfl⟩ := List.mem_map.mp ha
    obtain ⟨r, hr, _, _⟩ := hfetch u hu
    exact ⟨_, hf u hu r hr⟩
  have hgood_mem : ∀ u ∈ urlsToCache, ∀ r, env.fetch (Request.get u) = .ok (some r) →
      (Request.get u, r) ∈ good := by
    intro u hu r hr
    exact List.mem_filterMap.mpr
      ⟨(Request.get u, env.fetch (Request.get u)), List.mem_map.mpr ⟨u, hu, rfl⟩, hf u hu r hr⟩
  have hgood_val : ∀ p ∈ good, env.fetch p.1 = .ok (some p.2) := by
    intro p hp
    obtain ⟨a, ha, hfa⟩ := List.mem_filterMap.mp hp
    obtain ⟨u, hu, rfl⟩ := List.mem_map.mp ha
    obtain ⟨r, hr, _, _⟩ := hfetch u hu
    rw [hf u hu r hr] at hfa
    simp only [Option.some.injEq] at hfa
    subst hfa
    exact hr
  have hadd : cacheAddAll env (cachesOpen caches CACHE_NAME) CACHE_NAME urlsToCache =
      .ok (good.foldl (fun acc p => cachesPut acc CACHE_NAME p.1 p.2)
        (cachesOpen caches CACHE_NAME)) := by
    unfold cacheAddAll
    simp only
    rw [if_pos hlen]
  have hcaches : (installHandler env caches).caches =
      (cachesOpen caches CACHE_NAME).map (fun c =>
        if c.name = CACHE_NAME then good.foldl (fun acc p => acc.put p.1 p.2) c else c) := by
    unfold installHandler
    simp only [hopen, if_true, hadd]
    exact foldl_cachesPut good CACHE_NAME _
  rw [hcaches]
  constructor
  · obtain ⟨c, hc, hname⟩ := cachesOpen_exists caches CACHE_NAME
    refine ⟨good.foldl (fun acc p => acc.put p.1 p.2) c, ?_, ?_⟩
    · exact List.mem_map.mpr ⟨c, hc, by simp [hname]⟩
    · rw [foldl_put_name]
      exact hname
  · intro c hc hname u hu
    obtain ⟨c0, _, hc0⟩ := List.mem_map.mp hc
    obtain ⟨r, hr, _, _⟩ := hfetch u hu
    have hc0name : c0.name = CACHE_NAME := by
      by_cases h0 : c0.name = CACHE_NAME
      · exact h0
      · simp only [h0, if_false] at hc0
        rw [hc0] at h0
        exact absurd hname h0
    simp only [hc0name, if_true] at hc0
    have hmatch : c.match (Request.get u) = some r := by
      rw [← hc0]
      apply foldl_put_match
      · exact ⟨(Request.get u, r), hgood_mem u hu r hr, rfl⟩
      · intro p hp hpk
        have := hgood_val p hp
        rw [hpk, hr] at this
        simp only [Except.ok.injEq, Option.some.injEq] at this
        exact this.symm
    exact ⟨r, hr, hmatch, Cache.match_some_mem hmatch⟩

theorem install_success_caches_all_witness :
    urlsToCache.length = 22 ∧
    (installHandler
      { fetch := fun request => .ok (some ⟨200, "basic", request.url⟩), openOk := fun _ => true,
        putOk := fun _ _ => true } staleOnly).waitUntil = .ok () ∧
    (∃ c ∈ (installHandler
      { fetch := fun request => .ok (some ⟨200, "basic", request.url⟩), openOk := fun _ => true,
        putOk := fun _ _ => true } staleOnly).caches, c.name = CACHE_NAME) ∧
    ∀ c ∈ (installHandler
      { fetch := fun request => .ok (some ⟨200, "basic", request.url⟩), openOk := fun _ => true,
        putOk := fun _ _ => true } staleOnly).caches, c.name = CACHE_NAME →
      ∀ u ∈ urlsToCache, ∃ r,
        (Env.mk (fun request => .ok (some ⟨200, "basic", request.url⟩)) (fun _ => true)
          (fun _ _ => true)).fetch (Request.get u) = .ok (some r) ∧
        c.match (Request.get u) = some r ∧ (Request.get u, r) ∈ c.entries :=
  install_success_caches_all
    { fetch := fun request => .ok (some ⟨200, "basic", request.url⟩), openOk := fun _ => true,
      putOk := fun _ _ => true }
    staleOnly rfl (fun u _ => ⟨⟨200, "basic", (Request.get u).url⟩, rfl, rfl, rfl⟩)

/-! The email pattern -/

theorem mem_matchPlus (cls : Char → Bool) (s rest : List Char) :
    rest ∈ matchPlus cls s ↔
      ∃ pre, pre ≠ [] ∧ (∀ c ∈ pre, cls c = true) ∧ s = pre ++ rest := by
  induction s with
  | nil =>
    simp only [matchPlus, List.not_mem_nil, false_iff]
    rintro ⟨pre, hne, _, heq⟩
    cases pre with
    | nil => exact hne rfl
    | cons d pre2 => cases heq
  | cons c cs ih =>
    unfold matchPlus
    by_cases hc : cls c = true
    · simp only [hc, if_true, List.mem_cons]
      constructor
      · rintro (h | h)
        · exact ⟨[c], by simp, by simpa using hc, by simp [h]⟩
        · obtain ⟨pre, _, hall, heq⟩ := ih.mp h
          refine ⟨c :: pre, by simp, ?_, by simp [heq]⟩
          intro d hd
          rcases List.mem_cons.mp hd with h1 | h1
          · rw [h1]; exact hc
          · exact hall d h1
      · rintro ⟨pre, hne, hall, heq⟩
        cases pre with
        | nil => exact absurd rfl hne
        | cons d pre2 =>
          simp only [List.cons_append, List.cons.injEq] at heq
          obtain ⟨_, hcs⟩ := heq
          cases pre2 with
          | nil => left; simpa using hcs.symm
          | cons d2 pre3 =>
            right
            exact ih.mpr ⟨d2 :: pre3, by simp,
              fun x hx => hall x (List.mem_cons_of_mem _ hx), hcs⟩
    · rw [if_neg hc]
      simp only [List.not_mem_nil, false_iff]
      rintro ⟨pre, hne, hall, heq⟩
      cases pre with
      | nil => exact hne rfl
      | cons d pre2 =>
        simp only [List.cons_append, List.cons.injEq] at heq
        have := hall d (by simp)
        rw [← heq.1] at this
        exact hc this

theorem mem_matchChar (ch : Char) (s rest : List Char) :
    rest ∈ matchChar ch s ↔ s = ch :: rest := by
  cases s with
  | nil => simp [matchChar]
  | cons c cs =>
    unfold matchChar
    by_cases hc : c = ch
    · simp [hc, eq_comm]
    · simp [hc]

theorem emailRegexTest_iff (email : String) :
    emailRegexTest email = true ↔
      ∃ A B C : List Char, A ≠ [] ∧ B ≠ [] ∧ C ≠ [] ∧
        (∀ c ∈ A, notSpaceNorAt c = true) ∧ (∀ c ∈ B, notSpaceNorAt c = true) ∧
        (∀ c ∈ C, notSpaceNorAt c = true) ∧
        email.toList = A ++ '@' :: (B ++ '.' :: C) := by
  unfold emailRegexTest
  rw [List.any_eq_true]
  constructor
  · rintro ⟨rest, hmem, hempty⟩
    have hrest : rest = [] := by simpa using hempty
    subst hrest
    obtain ⟨r4, h4, hC⟩ := List.mem_flatMap.mp hmem
    obtain ⟨r3, h3, hdot⟩ := List.mem_flatMap.mp h4
    obtain ⟨r2, h2, hB⟩ := List.mem_flatMap.mp h3
    obtain ⟨r1, hA, hat⟩ := List.mem_flatMap.mp h2
    obtain ⟨A, hAne, hAall, hAeq⟩ := (mem_matchPlus _ _ _).mp hA
    have hat2 := (mem_matchChar _ _ _).mp hat
    obtain ⟨B, hBne, hBall, hBeq⟩ := (mem_matchPlus _ _ _).mp hB
    have hdot2 := (mem_matchChar _ _ _).mp hdot
    obtain ⟨C, hCne, hCall, hCeq⟩ := (mem_matchPlus _ _ _).mp hC
    refine ⟨A, B, C, hAne, hBne, hCne, hAall, hBall, hCall, ?_⟩
    rw [hAeq, hat2, hBeq, hdot2, hCeq]
    simp
  · rintro ⟨A, B, C, hAne, hBne, hCne, hAall, hBall, hCall, heq⟩
    refine ⟨[], ?_, rfl⟩
    refine List.mem_flatMap.mpr ⟨C, ?_, (mem_matchPlus _ _ _).mpr ⟨C, hCne, hCall, by simp⟩⟩
    refine List.mem_flatMap.mpr ⟨'.' :: C, ?_, (mem_matchChar _ _ _).mpr rfl⟩
    refine List.mem_flatMap.mpr ⟨B ++ '.' :: C, ?_, (mem_matchPlus _ _ _).mpr ⟨B, hBne, hBall, rfl⟩⟩
    refine List.mem_flatMap.mpr ⟨'@' :: (B ++ '.' :: C), ?_, (mem_matchChar _ _ _).mpr rfl⟩
    exact (mem_matchPlus _ _ _).mpr ⟨A, hAne, hAall, heq⟩

theorem notSpaceNorAt_iff (c : Char) :
    notSpaceNorAt c = true ↔ isWhiteSpace c = false ∧ c ≠ '@' := by
  unfold notSpaceNorAt
  simp

theorem count_at_zero_of_class (l : List Char) (h : ∀ c ∈ l, notSpaceNorAt c = true) :
    l.count '@' = 0 := by
  rw [List.count_eq_zero]
  intro hmem
  exact ((notSpaceNorAt_iff _).mp (h _ hmem)).2 rfl

/-- C19: the pattern `/^[^\s@]+@[^\s@]+\.[^\s@]+$/` accepts a string exactly when
it contains no white space, contains exactly one `@`, has a non-empty part
before the `@`, and the part after the `@` contains a `.` that is neither its
first nor its last character; it rejects `not-an-email` and accepts `a@b.com`. -/
theorem emailRegex_accepts_iff (email : String) :
    (emailRegexTest email = true ↔
      (∀ c ∈ email.toList, isWhiteSpace c = false) ∧
      email.toList.count '@' = 1 ∧
      ∃ localPart domain : List Char,
        email.toList = localPart ++ '@' :: domain ∧ localPart ≠ [] ∧
        ∃ i, 0 < i ∧ i + 1 < domain.length ∧ domain[i]? = some '.') ∧
    emailRegexTest "not-an-email" = false ∧ emailRegexTest "a@b.com" = true := by
  refine ⟨?_, by decide, by decide⟩
  rw [emailRegexTest_iff]
  constructor
  · rintro ⟨A, B, C, hAne, hBne, hCne, hA, hB, hC, heq⟩
    have hBlen : 0 < B.length := List.length_pos.mpr hBne
    have hClen : 0 < C.length := List.length_pos.mpr hCne
    refine ⟨?_, ?_, A, B ++ '.' :: C, heq, hAne, B.length, hBlen, ?_, ?_⟩
    · intro c hc
      rw [heq] at hc
      simp only [List.mem_append, List.mem_cons] at hc
      rcases hc with h | h | h | h | h
      · exact ((notSpaceNorAt_iff _).mp (hA c h)).1
      · rw [h]; decide
      · exact ((notSpaceNorAt_iff _).mp (hB c h)).1
      · rw [h]; decide
      · exact ((notSpaceNorAt_iff _).mp (hC c h)).1
    · rw [heq]
      simp only [List.count_append, List.count_cons, count_at_zero_of_class A hA,
        count_at_zero_of_class B hB, count_at_zero_of_class C hC]
      decide
    · simp only [List.length_append, List.length_cons]
      omega
    · rw [List.getElem?_append_right (Nat.le_refl _)]
      simp
  · rintro ⟨hws, hcount, L, D, heq, hLne, i, hi0, hi1, hdot⟩
    have hcnt : L.count '@' + (1 + D.count '@') = 1 := by
      rw [heq] at hcount
      simp only [List.count_append, List.count_cons, beq_self_eq_true, if_true] at hcount
      omega
    have hL0 : '@' ∉ L := List.count_eq_zero.mp (by omega)
    have hD0 : '@' ∉ D := List.count_eq_zero.mp (by omega)
    have hilt : i < D.length := by omega
    have hDi : D[i] = '.' := by
      have := List.getElem?_eq_getElem hilt
      rw [this] at hdot
      exact Option.some.inj hdot
    have hsplit : D = D.take i ++ '.' :: D.drop (i + 1) := by
      have h1 : D.drop i = D[i] :: D.drop (i + 1) := List.drop_eq_getElem_cons hilt
      rw [← hDi, ← h1, List.take_append_drop]
    have hclass : ∀ c, c ∈ email.toList → c ≠ '@' → notSpaceNorAt c = true :=
      fun c hc hne => (notSpaceNorAt_iff c).mpr ⟨hws c hc, hne⟩
    have hmemL : ∀ c ∈ L, c ∈ email.toList := by
      intro c hc
      rw [heq]
      exact List.mem_append.mpr (Or.inl hc)
    have hmemD : ∀ c ∈ D, c ∈ email.toList := by
      intro c hc
      rw [heq]
      exact List.mem_append.mpr (Or.inr (List.mem_cons_of_mem _ hc))
    refine ⟨L, D.take i, D.drop (i + 1), hLne, ?_, ?_, ?_, ?_, ?_, ?_⟩
    · apply List.ne_nil_of_length_pos
      rw [List.length_take]
      omega
    · apply List.ne_nil_of_length_pos
      rw [List.length_drop]
      omega
    · intro c hc
      exact hclass c (hmemL c hc) (fun h => hL0 (h ▸ hc))
    · intro c hc
      have hcD : c ∈ D := List.mem_of_mem_take hc
      exact hclass c (hmemD c hcD) (fun h => hD0 (h ▸ hcD))
    · intro c hc
      have hcD : c ∈ D := List.mem_of_mem_drop hc
      exact hclass c (hmemD c hcD) (fun h => hD0 (h ▸ hcD))
    · rw [← hsplit]
      exact heq

/-! Client-side validation and the server's checks -/

theorem validateForm_result_iff (email message : String) :
    (MainJs.validateForm email message).result = true ↔
      emailRegexTest email = true ∧ 10 ≤ jsLength message := by
  unfold MainJs.validateForm
  by_cases he : emailRegexTest email = true
  · by_cases hm : jsLength message < 10
    · simp [he, hm]
    · simp [he, hm]
      omega
  · simp [he]

theorem validateForm_email_first (email message : String)
    (he : emailRegexTest email = false) :
    MainJs.validateForm email message =
      { result := false, notifications := [("Please enter a valid email address", "error")] } := by
  unfold MainJs.validateForm
  simp [he]

theorem contactForm_validate_cases (email message : String) :
    (emailRegexTest email = true ∧ 10 ≤ jsLength message →
      ContactFormJs.validateForm email message = .ok { result := true, notifications := [] }) ∧
    (¬ (emailRegexTest email = true ∧ 10 ≤ jsLength message) →
      ContactFormJs.validateForm email message =
        .error "ReferenceError: showNotification is not defined") := by
  unfold ContactFormJs.validateForm ContactFormJs.showNotification
  by_cases he : emailRegexTest email = true
  · by_cases hm : jsLength message < 10
    · simp [he, hm]
    · simp [he, hm]
  · simp [he]

theorem jsLength_pos_ne_empty {s : String} (h : 0 < jsLength s) : s ≠ "" := by
  intro hs
  subst hs
  simp [jsLength] at h

theorem emailRegexTest_ne_empty {s : String} (h : emailRegexTest s = true) : s ≠ "" := by
  intro hs
  subst hs
  revert h
  decide

theorem accepted_submission_passes_server (env : ContactEnv)
    (name email subject message : String)
    (haccept : (MainJs.validateForm email message).result = true)
    (hname : name ≠ "") (hsubject : subject ≠ "") :
    ContactFormJs.validateForm email message = .ok (MainJs.validateForm email message) ∧
    (JsValue.string name).truthy = true ∧ (JsValue.string email).truthy = true ∧
    (JsValue.string subject).truthy = true ∧ (JsValue.string message).truthy = true ∧
    emailRegexTestValue (.string email) = .ok true ∧
    (contactHandler env
      ⟨.string name, .string email, .string subject, .string message⟩).response.status
      ≠ 400 := by
  obtain ⟨hmatch, hlen⟩ := (validateForm_result_iff email message).mp haccept
  have hemail : email ≠ "" := emailRegexTest_ne_empty hmatch
  have hmessage : message ≠ "" := jsLength_pos_ne_empty (by omega)
  have hmain : MainJs.validateForm email message = { result := true, notifications := [] } := by
    unfold MainJs.validateForm
    have : ¬ jsLength message < 10 := by omega
    simp [hmatch, this]
  refine ⟨?_, by simp [JsValue.truthy, hname], by simp [JsValue.truthy, hemail],
    by simp [JsValue.truthy, hsubject], by simp [JsValue.truthy, hmessage],
    by simp [emailRegexTestValue, JsValue.toJsString, hmatch], ?_⟩
  · rw [hmain]
    exact (contactForm_validate_cases email message).1 ⟨hmatch, hlen⟩
  obtain ⟨o, ho⟩ := mailOptions_strings env name email subject message
  obtain ⟨l, hl⟩ := contactLogLine_strings env name email subject message
  rw [contactHandler_valid env name email subject message hname hemail hsubject hmessage
    hmatch o ho, hl]
  cases env.sendMail o with
  | error e => simp [contactCatch]
  | ok u => simp

/-- C21, at a failing input: for the email `not-an-email` and the message
`short`, which fail both checks, `validateForm` of `main.js` returns false
after the one notification 'Please enter a valid email address', but
`validateForm` of `contact-form.js` returns nothing and reports nothing: its
call of `showNotification`, a name that is not declared in its scope, throws. -/
theorem contact_form_validate_throws :
    emailRegexTest "not-an-email" = false ∧ jsLength "short" < 10 ∧
    MainJs.validateForm "not-an-email" "short" =
      { result := false, notifications := [("Please enter a valid email address", "error")] } ∧
    ContactFormJs.validateForm "not-an-email" "short" =
      .error "ReferenceError: showNotification is not defined" := by
  refine ⟨by decide, by decide, by decide, by decide⟩

/-- C22, at a failing input: for the email `a@b.com` and the message `too short`
the two client validators do not give the same result: the one of `main.js`
returns false, the one of `contact-form.js` throws a `ReferenceError` instead
of returning, because `showNotification` is not declared in its scope. -/
theorem client_validators_differ :
    (MainJs.validateForm "a@b.com" "too short").result = false ∧
    ContactFormJs.validateForm "a@b.com" "too short" =
      .error "ReferenceError: showNotification is not defined" ∧
    ContactFormJs.validateForm "a@b.com" "too short" ≠
      .ok (MainJs.validateForm "a@b.com" "too short") := by
  refine ⟨by decide, by decide, by decide⟩

/-- C25: for every accepted contact submission (non-empty strings, email passing
the pattern), whatever the mail provider answers, `transporter.sendMail` is
called exactly once, and that call is addressed to `annanshrestha1@gmail.com`,
has the subject `Portfolio Contact: ` followed by the submitted subject, and
has the submitted email as `replyTo`. -/
theorem contact_delivery_addressing (env : ContactEnv) (name email subject message : String)
    (hname : name ≠ "") (hemail : email ≠ "") (hsubject : subject ≠ "")
    (hmessage : message ≠ "") (hmatch : emailRegexTest email = true) :
    ∃ o, (contactHandler env
        ⟨.string name, .string email, .string subject, .string message⟩).sendMailCalls = [o] ∧
      o.toAddr = "annanshrestha1@gmail.com" ∧
      o.subject = "Portfolio Contact: " ++ subject ∧
      o.replyTo = .string email := by
  obtain ⟨o, ho⟩ := mailOptions_strings env name email subject message
  obtain ⟨l, hl⟩ := contactLogLine_strings env name email subject message
  have hfields : o.toAddr = "annanshrestha1@gmail.com" ∧
      o.subject = "Portfolio Contact: " ++ subject ∧ o.replyTo = .string email := by
    have h2 : mailOptions env ⟨.string name, .string email, .string subject, .string message⟩
        = .ok o := ho
    simp only [mailOptions, JsValue.toJsString, messageReplace, bind, Except.bind, pure,
      Except.pure, Except.ok.injEq] at h2
    subst h2
    exact ⟨rfl, rfl, rfl⟩
  refine ⟨o, ?_, hfields⟩
  rw [contactHandler_valid env name email subject message hname hemail hsubject hmessage
    hmatch o ho, hl]
  cases env.sendMail o with
  | error e => rfl
  | ok u => rfl

theorem contact_delivery_addressing_witness :
    ∃ o, (contactHandler { EMAIL_USER := none, sendMail := fun _ => .ok (), now := "" }
        ⟨.string "A", .string "a@b.com", .string "Hi", .string "Hello there"⟩).sendMailCalls
        = [o] ∧
      o.toAddr = "annanshrestha1@gmail.com" ∧
      o.subject = "Portfolio Contact: " ++ "Hi" ∧
      o.replyTo = .string "a@b.com" :=
  contact_delivery_addressing { EMAIL_USER := none, sendMail := fun _ => .ok (), now := "" }
    "A" "a@b.com" "Hi" "Hello there" (by decide) (by decide) (by decide) (by decide)
    (by decide)

/-- C24, at a failing input: for the path parameter `constructor`, which is
neither `points` nor `polygons`, `sampleData[type]` is the function inherited
from `Object.prototype`; it is truthy, so the fallback to `sampleData.points`
is not taken and the response carries no feature collection (likewise an empty
object for `__proto__`), whereas an unknown name such as `roads` gets the points. -/
theorem gis_data_inherited_name_not_points :
    (gisDataHandler "constructor").body = .undefined ∧
    (gisDataHandler "constructor").body ≠ samplePoints ∧
    (gisDataHandler "__proto__").body = .obj [] ∧
    (gisDataHandler "roads").body = samplePoints ∧
    (gisDataHandler "polygons").body = samplePolygons := by
  have h1 : (gisDataHandler "constructor").body = .undefined := by
    simp [gisDataHandler, sampleDataGet, objectPrototypeFunctions]
  refine ⟨h1, ?_, ?_, ?_, ?_⟩
  · rw [h1]
    exact fun h => Json.noConfusion h
  · simp [gisDataHandler, sampleDataGet]
  · simp [gisDataHandler, sampleDataGet, objectPrototypeFunctions]
  · simp [gisDataHandler, sampleDataGet]

/-! The frame of the fetch handler -/

theorem cachesMatch_append_empty (caches : CacheStorage) (name : String) (k : Request) :
    cachesMatch (caches ++ [⟨name, []⟩]) k = cachesMatch caches k := by
  induction caches with
  | nil => rfl
  | cons c rest ih =>
    rw [List.cons_append, cachesMatch, cachesMatch, ih]

theorem cachesMatch_cachesOpen (caches : CacheStorage) (name : String) (k : Request) :
    cachesMatch (cachesOpen caches name) k = cachesMatch caches k := by
  unfold cachesOpen
  split
  · rfl
  · exact cachesMatch_append_empty caches name k

theorem cachesMatch_map_congr (g : Cache → Cache) (k : Request)
    (hg : ∀ c, (g c).match k = c.match k) (caches : CacheStorage) :
    cachesMatch (caches.map g) k = cachesMatch caches k := by
  induction caches with
  | nil => rfl
  | cons c rest ih =>
    simp only [List.map_cons, cachesMatch]
    rw [hg c, ih]

theorem Cache.put_eq_append {c : Cache} {request : Request} (response : Response)
    (h : ∀ r, (request, r) ∉ c.entries) :
    c.put request response = { c with entries := c.entries ++ [(request, response)] } := by
  unfold Cache.put
  have hf : c.entries.filter (fun e => decide (e.1 ≠ request)) = c.entries := by
    rw [List.filter_eq_self]
    intro e he
    have hne : e.1 ≠ request := by
      intro heq
      apply h e.2
      rw [← heq]
      exact he
    simpa using hne
  rw [hf]

theorem cachesOpen_no_entry {caches : CacheStorage} {request : Request} (name : String)
    (h : ∀ c ∈ caches, ∀ r, (request, r) ∉ c.entries) :
    ∀ c ∈ cachesOpen caches name, ∀ r, (request, r) ∉ c.entries := by
  unfold cachesOpen
  split
  · exact h
  · intro c hc r
    rcases List.mem_append.mp hc with h1 | h1
    · exact h c h1 r
    · simp only [List.mem_singleton] at h1
      subst h1
      simp

theorem cachesOpen_other_mem (caches : CacheStorage) (name : String) (c : Cache)
    (hc : c.name ≠ name) : c ∈ cachesOpen caches name ↔ c ∈ caches := by
  unfold cachesOpen
  split
  · rfl
  · simp only [List.mem_append, List.mem_singleton]
    constructor
    · rintro (h | h)
      · exact h
      · subst h
        exact absurd rfl hc
    · exact Or.inl

/-- C23: the frame of the fetch handler. On a cache hit the cache storage is
unchanged. On a miss with a cacheable response whose write goes through, the
storage afterwards is the storage before (with the store `CACHE_NAME` created
empty if it was missing) in which the store named `CACHE_NAME` has gained the
one entry keyed by the request: every store of another name is there exactly as
before, and the lookup of every other request gives what it gave before. -/
theorem fetch_frame (env : Env) (caches : CacheStorage) (request : Request) :
    (∀ stored, cachesMatch caches request = some stored →
      (fetchHandler env caches request).caches = caches) ∧
    (∀ response, (∀ c ∈ caches, ∀ r, (request, r) ∉ c.entries) →
      env.fetch request = .ok (some response) →
      response.status = 200 → response.type = "basic" →
      env.openOk CACHE_NAME = true → env.putOk request response = true →
      (fetchHandler env caches request).caches =
        (cachesOpen caches CACHE_NAME).map (fun c =>
          if c.name = CACHE_NAME then
            { c with entries := c.entries ++ [(request, response)] }
          else c) ∧
      (∀ c, c.name ≠ CACHE_NAME →
        (c ∈ (fetchHandler env caches request).caches ↔ c ∈ caches)) ∧
      (∀ k, k ≠ request →
        cachesMatch (fetchHandler env caches request).caches k = cachesMatch caches k)) := by
  constructor
  · intro stored hs
    unfold fetchHandler
    rw [hs]
  · intro response hmiss hfetch hstatus htype hopen hput
    have hm : cachesMatch caches request = none := cachesMatch_none_of_no_entry hmiss
    have hcaches : (fetchHandler env caches request).caches =
        cachesPut (cachesOpen caches CACHE_NAME) CACHE_NAME request response := by
      unfold fetchHandler
      simp [hm, hfetch, hstatus, htype, hopen, hput]
    have hform : cachesPut (cachesOpen caches CACHE_NAME) CACHE_NAME request response =
        (cachesOpen caches CACHE_NAME).map (fun c =>
          if c.name = CACHE_NAME then
            { c with entries := c.entries ++ [(request, response)] }
          else c) := by
      unfold cachesPut
      apply List.map_congr_left
      intro c hc
      by_cases hn : c.name = CACHE_NAME
      · rw [if_pos hn, if_pos hn]
        exact Cache.put_eq_append response (cachesOpen_no_entry CACHE_NAME hmiss c hc)
      · rw [if_neg hn, if_neg hn]
    refine ⟨hcaches.trans hform, ?_, ?_⟩
    · intro c hc
      rw [hcaches, hform, ← cachesOpen_other_mem caches CACHE_NAME c hc]
      constructor
      · intro hmem
        obtain ⟨c0, hc0, heq⟩ := List.mem_map.mp hmem
        by_cases hn : c0.name = CACHE_NAME
        · rw [if_pos hn] at heq
          rw [← heq] at hc
          exact absurd hn hc
        · rw [if_neg hn] at heq
          rw [← heq]
          exact hc0
      · intro hmem
        exact List.mem_map.mpr ⟨c, hmem, by simp [hc]⟩
    · intro k hk
      rw [hcaches]
      unfold cachesPut
      rw [cachesMatch_map_congr _ k _ (cachesOpen caches CACHE_NAME),
        cachesMatch_cachesOpen]
      intro c
      by_cases hn : c.name = CACHE_NAME
      · rw [if_pos hn]
        exact Cache.match_put_other c response hk
      · rw [if_neg hn]

theorem fetch_frame_witness :
    (fetchHandler indexFetchFails
        [Cache.mk CACHE_NAME [(Request.get "/", ⟨200, "basic", "home"⟩)]]
        (Request.get "/")).caches =
      [Cache.mk CACHE_NAME [(Request.get "/", ⟨200, "basic", "home"⟩)]] ∧
    (fetchHandler
        { fetch := fun _ => .ok (some ⟨200, "basic", "body"⟩), openOk := fun _ => true,
          putOk := fun _ _ => true } staleOnly (Request.get "/js/main.js")).caches =
      (cachesOpen staleOnly CACHE_NAME).map (fun c =>
        if c.name = CACHE_NAME then
          { c with entries := c.entries ++ [(Request.get "/js/main.js", ⟨200, "basic", "body"⟩)] }
        else c) :=
  ⟨(fetch_frame indexFetchFails
      [Cache.mk CACHE_NAME [(Request.get "/", ⟨200, "basic", "home"⟩)]]
      (Request.get "/")).1 ⟨200, "basic", "home"⟩ (by decide),
    ((fetch_frame
      { fetch := fun _ => .ok (some ⟨200, "basic", "body"⟩), openOk := fun _ => true,
        putOk := fun _ _ => true } staleOnly (Request.get "/js/main.js")).2
      ⟨200, "basic", "body"⟩
      (fun c hc r hmem => by
        simp only [staleOnly, List.mem_singleton] at hc
        subst hc
        simp at hmem)
      rfl rfl rfl rfl rfl).1⟩

/-! The typing animation -/

theorem texts_get (i : Nat) (hi : i < 7) :
    ∃ cur, texts[i]? = some cur ∧ 1 ≤ jsLength cur := by
  interval_cases i <;> exact ⟨_, rfl, by decide⟩

theorem substring0_isPrefix (cur : String) (stop : Int) :
    (substring0 cur stop).toList <+: cur.toList := by
  unfold substring0
  exact List.take_prefix _ _

theorem typing_strong_invariant (s : TypingState) (h : TypingReachable s) :
    s.textIndex < 7 ∧ 0 ≤ s.charIndex ∧
    (s.isDeleting = true → 1 ≤ s.charIndex ∧ s.pendingTimers = 0) ∧
    s.pendingTimers ≤ 1 ∧
    (s.pendingTimers = 1 →
      ∀ cur, texts[s.textIndex]? = some cur → (jsLength cur : Int) ≤ s.charIndex) ∧
    (∀ t, s.textContent = some t →
      ∀ cur, texts[s.textIndex]? = some cur → t.toList <+: cur.toList) := by
  induction h with
  | start => simp [initialTyping]
  | @tick s _ ih =>
    obtain ⟨hti, hci, hdel, hp, hpend, _⟩ := ih
    obtain ⟨cur, hcur, hlen⟩ := texts_get s.textIndex hti
    obtain ⟨ti, ci, del, tc, p⟩ := s
    simp only at hti hci hdel hp hpend hcur
    unfold typeAnimation
    simp only [hcur]
    cases del with
    | true =>
      obtain ⟨hci1, hp0⟩ := hdel rfl
      subst hp0
      by_cases hz : ci - 1 = 0
      · have hlt : (ti + 1) % texts.length < 7 := Nat.mod_lt _ (by decide)
        simp only [if_true, Bool.not_true, Bool.false_and, Bool.true_and, hz, decide_True,
          Bool.false_eq_true, if_false]
        refine ⟨hlt, le_refl _, by simp, by simp, by simp, ?_⟩
        intro t ht cur2 _
        simp only [Option.some.injEq] at ht
        subst ht
        simp [substring0]
      · simp only [if_true, Bool.not_true, Bool.false_and, Bool.true_and, hz, decide_False,
          Bool.false_eq_true, if_false]
        refine ⟨hti, by omega, fun _ => ⟨by omega, trivial⟩, by simp, by simp, ?_⟩
        intro t ht cur2 hcur2
        simp only [Option.some.injEq] at ht
        subst ht
        rw [hcur] at hcur2
        simp only [Option.some.injEq] at hcur2
        subst hcur2
        exact substring0_isPrefix _ _
    | false =>
      have hpre : ∀ t, some (substring0 cur (ci + 1)) = some t →
          ∀ cur2, texts[ti]? = some cur2 → t.toList <+: cur2.toList := by
        intro t ht cur2 hcur2
        simp only [Option.some.injEq] at ht
        subst ht
        rw [hcur] at hcur2
        simp only [Option.some.injEq] at hcur2
        subst hcur2
        exact substring0_isPrefix _ _
      by_cases hend : ci + 1 = (jsLength cur : Int)
      · have hp0 : p = 0 := by
          by_contra hne
          have hp1 : p = 1 := by omega
          have := hpend hp1 cur hcur
          omega
        subst hp0
        simp only [Bool.false_eq_true, if_false, Bool.not_false, Bool.true_and, hend,
          decide_True, if_true]
        refine ⟨hti, by omega, by simp, by simp, ?_, by rw [← hend]; exact hpre⟩
        intro _ cur2 hcur2
        rw [hcur] at hcur2
        simp only [Option.some.injEq] at hcur2
        subst hcur2
        omega
      · simp only [Bool.false_eq_true, if_false, Bool.not_false, Bool.true_and, hend,
          decide_False, Bool.false_and]
        refine ⟨hti, by omega, by simp, hp, ?_, hpre⟩
        intro hp1 cur2 hcur2
        have := hpend hp1 cur2 hcur2
        omega
  | @timer s _ hpos ih =>
    obtain ⟨hti, hci, _, hp, hpend, htext⟩ := ih
    obtain ⟨cur, hcur, hlen⟩ := texts_get s.textIndex hti
    have hp1 : s.pendingTimers = 1 := by omega
    have hbig := hpend hp1 cur hcur
    unfold fireTimer
    refine ⟨hti, hci, fun _ => ⟨by simp only; omega, by simp only; omega⟩,
      by simp only; omega, ?_, htext⟩
    intro h1
    simp only at h1
    omega

/-- C26: in every state reachable by interleaving runs of `typeAnimation` with
the callbacks of the delayed `isDeleting = true` timers, `textIndex` is a valid
index into the seven `texts`, `charIndex` is not negative, and the text the
animation has written to the element is a prefix of `texts[textIndex]`. -/
theorem typing_invariant (s : TypingState) (h : TypingReachable s) :
    texts.length = 7 ∧ s.textIndex < 7 ∧ 0 ≤ s.charIndex ∧
    ∃ currentText, texts[s.textIndex]? = some currentText ∧
      ∀ t, s.textContent = some t → t.toList <+: currentText.toList := by
  obtain ⟨hti, hci, _, _, _, htext⟩ := typing_strong_invariant s h
  obtain ⟨cur, hcur, _⟩ := texts_get s.textIndex hti
  exact ⟨rfl, hti, hci, cur, hcur, fun t ht => htext t ht cur hcur⟩

theorem typing_invariant_witness :
    texts.length = 7 ∧ (typeAnimation initialTyping).textIndex < 7 ∧
    0 ≤ (typeAnimation initialTyping).charIndex ∧
    ∃ currentText,
      texts[(typeAnimation initialTyping).textIndex]? = some currentText ∧
      ∀ t, (typeAnimation initialTyping).textContent = some t →
        t.toList <+: currentText.toList :=
  typing_invariant (typeAnimation initialTyping) (TypingReachable.tick TypingReachable.start)

end Profile
